import Mathlib

/-!
Verification of the Resilient Stage Orchestrator (Pentagon Protocol).

This file gives a shallow embedding, in Lean 4, of the core data model and
operations of the orchestrator: the agent dependency closure, the JSON
recovery ladder (`safe_parse_json` and its rungs), the manager decision
paths (primary post-processing and deterministic fallback), the schema
validators, and the context manager.  Each definition is translated from
the Python source (`src/crew.py`, `src/schemas.py`); machine strings are
`String`/`List Char`, Python dict-shaped records become Lean structures
mirroring the validated schema fields, and regular-expression scans are
written out as explicit character-level scanners with the same semantics.
Scanners that are not structurally recursive take an explicit fuel
argument, always invoked with `length + 1`, which is an upper bound on the
number of scan steps.
-/

namespace Pentagon

/-! ### Character and string helpers (Python semantics, ASCII range) -/

/-- Python regex `\s` / `str.strip` whitespace, restricted to the ASCII range. -/
def pyIsSpace (c : Char) : Bool :=
  c == ' ' || c == '\t' || c == '\n' || c == '\r' || c == '\x0b' || c == '\x0c'

/-- `str.strip()` on a character list: drop whitespace at both ends. -/
def pyStrip (cs : List Char) : List Char :=
  ((cs.dropWhile pyIsSpace).reverse.dropWhile pyIsSpace).reverse

/-- `str.strip()` on a `String`. -/
def stripStr (s : String) : String := String.mk (pyStrip s.toList)

/-- `str.lower()` (ASCII). -/
def lowerStr (s : String) : String := String.mk (s.toList.map Char.toLower)

/-- Count occurrences of a character, as in Python `str.count` of a 1-char needle. -/
def countChar (c : Char) (cs : List Char) : Nat := cs.count c

/-- Python `str.replace(pat, rep)`: replace all non-overlapping occurrences,
scanning left to right.  `pat` is assumed non-empty at call sites (as in the
source); the fuel (always `length + 1`) bounds the scan steps, each of which
consumes at least one character. -/
def replaceAllL (pat rep : List Char) : Nat → List Char → List Char
  | 0, cs => cs
  | _ + 1, [] => []
  | fuel + 1, c :: rest =>
    if pat ≠ [] ∧ pat.isPrefixOf (c :: rest) then
      rep ++ replaceAllL pat rep fuel ((c :: rest).drop pat.length)
    else
      c :: replaceAllL pat rep fuel rest

/-- `str.replace` on `String`s. -/
def replaceAll (s pat rep : String) : String :=
  String.mk (replaceAllL pat.toList rep.toList (s.toList.length + 1) s.toList)

/-! ### Agent identifiers and the dependency closure (`src/crew.py`) -/

/-- Agent identifier for the product owner stage. -/
def AGENT_PRODUCT_OWNER : String := "product_owner"

/-- Agent identifier for the architect stage. -/
def AGENT_ARCHITECT : String := "architect"

/-- Agent identifier for the backend engineer stage. -/
def AGENT_BACKEND_ENGINEER : String := "backend_engineer"

/-- Agent identifier for the frontend engineer stage. -/
def AGENT_FRONTEND_ENGINEER : String := "frontend_engineer"

/-- `AGENT_DEPENDENCIES` from `src/crew.py`: the static downstream-dependency
map, as a total function (an agent outside the map has no entry, which the
source guards with `if agent in AGENT_DEPENDENCIES`). -/
def agentDependencies (a : String) : List String :=
  if a = AGENT_PRODUCT_OWNER then
    [AGENT_ARCHITECT, AGENT_BACKEND_ENGINEER, AGENT_FRONTEND_ENGINEER]
  else if a = AGENT_ARCHITECT then [AGENT_BACKEND_ENGINEER, AGENT_FRONTEND_ENGINEER]
  else if a = AGENT_BACKEND_ENGINEER then [AGENT_FRONTEND_ENGINEER]
  else []

/-- The fixed execution order used by `_add_agent_dependencies` to emit the
rerun list (also the set of known stage identifiers). -/
def executionOrder : List String :=
  [AGENT_PRODUCT_OWNER, AGENT_ARCHITECT, AGENT_BACKEND_ENGINEER, AGENT_FRONTEND_ENGINEER]

/-- `_add_agent_dependencies` (`src/crew.py` 734-751): union the requested
agents with their downstream dependencies, then return the members of that
set in the fixed execution order.  The Python `set` is modelled by list
membership in `agents ++ agents.flatMap agentDependencies`. -/
def add_agent_dependencies (agents : List String) : List String :=
  executionOrder.filter (fun a => decide (a ∈ agents ++ agents.flatMap agentDependencies))

/-! ### JSON values and `json.loads` (the parser backing every ladder rung) -/

/-- A parsed JSON value, mirroring what Python's `json.loads` produces.
Numbers keep their lexeme (the source never computes with them); objects are
key/value lists with dict semantics (duplicate keys are merged on insertion,
last value wins, first position kept, as in a Python dict). -/
inductive Json where
  | null
  | bool (b : Bool)
  | num (lexeme : String)
  | str (s : String)
  | arr (elems : List Json)
  | obj (members : List (String × Json))

/-- Whitespace accepted by Python's `json` module (between tokens). -/
def jsonWs (c : Char) : Bool := c == ' ' || c == '\t' || c == '\n' || c == '\r'

/-- Hexadecimal digit value, for `\uXXXX` escapes. -/
def hexVal (c : Char) : Option Nat :=
  if '0' ≤ c ∧ c ≤ '9' then some (c.toNat - '0'.toNat)
  else if 'a' ≤ c ∧ c ≤ 'f' then some (c.toNat - 'a'.toNat + 10)
  else if 'A' ≤ c ∧ c ≤ 'F' then some (c.toNat - 'A'.toNat + 10)
  else none

/-- Decode one string body (after the opening quote), in the strict mode of
`json.loads`: raw control characters are rejected; escapes are the JSON ones;
`\uXXXX` surrogate pairs are combined.  (A lone surrogate, which CPython would
keep as a non-scalar code unit, is rejected here since Lean `Char` holds only
scalar values; no claim exercises that corner.)  Returns the decoded string
and the characters after the closing quote. -/
def parseStringBody : List Char → Option (List Char × List Char)
  | [] => none
  | '"' :: rest => some ([], rest)
  | '\\' :: 'u' :: h1 :: h2 :: h3 :: h4 :: rest => do
    let a ← hexVal h1
    let b ← hexVal h2
    let c ← hexVal h3
    let d ← hexVal h4
    let n := ((a * 16 + b) * 16 + c) * 16 + d
    if 0xD800 ≤ n ∧ n < 0xDC00 then
      match rest with
      | '\\' :: 'u' :: g1 :: g2 :: g3 :: g4 :: rest2 => do
        let a2 ← hexVal g1
        let b2 ← hexVal g2
        let c2 ← hexVal g3
        let d2 ← hexVal g4
        let m := ((a2 * 16 + b2) * 16 + c2) * 16 + d2
        if 0xDC00 ≤ m ∧ m < 0xE000 then
          let code := 0x10000 + (n - 0xD800) * 0x400 + (m - 0xDC00)
          let (s, r) ← parseStringBody rest2
          some (Char.ofNat code :: s, r)
        else none
      | _ => none
    else if 0xDC00 ≤ n ∧ n < 0xE000 then none
    else do
      let (s, r) ← parseStringBody rest
      some (Char.ofNat n :: s, r)
  | '\\' :: e :: rest => do
    let c ←
      if e = '"' then some '"'
      else if e = '\\' then some '\\'
      else if e = '/' then some '/'
      else if e = 'b' then some '\x08'
      else if e = 'f' then some '\x0c'
      else if e = 'n' then some '\n'
      else if e = 'r' then some '\r'
      else if e = 't' then some '\t'
      else none
    let (s, r) ← parseStringBody rest
    some (c :: s, r)
  | c :: rest =>
    if c.toNat < 0x20 then none
    else do
      let (s, r) ← parseStringBody rest
      some (c :: s, r)

/-- Insert a key into an object's member list with Python dict semantics:
an existing key keeps its position and gets the new value; a new key is
appended. -/
def insertKV (kvs : List (String × Json)) (k : String) (v : Json) :
    List (String × Json) :=
  match kvs with
  | [] => [(k, v)]
  | (k0, v0) :: rest =>
    if k0 = k then (k0, v) :: rest else (k0, v0) :: insertKV rest k v

/-- Is this a JSON digit? -/
def isDigitC (c : Char) : Bool := '0' ≤ c && c ≤ '9'

/-- Scan the JSON number grammar `-?(0|[1-9]\d*)(\.\d+)?([eE][-+]?\d+)?` at the
head of the input, returning the lexeme and the rest (as `json.scanner` does
with `NUMBER_RE`). -/
def scanNumber (cs : List Char) : Option (List Char × List Char) :=
  let (sign, cs1) :=
    match cs with
    | '-' :: r => (['-'], r)
    | _ => (([] : List Char), cs)
  match cs1 with
  | '0' :: r =>
    let intPart := ['0']
    some (sign ++ intPart, r)
  | c :: r =>
    if isDigitC c ∧ c ≠ '0' then
      let ds := r.takeWhile isDigitC
      some (sign ++ c :: ds, r.dropWhile isDigitC)
    else none
  | [] => none

/-- Continue a scanned integer lexeme with an optional fraction and exponent. -/
def scanFracExp (intLex : List Char) (cs : List Char) : List Char × List Char :=
  let (withFrac, cs2) :=
    match cs with
    | '.' :: r =>
      let ds := r.takeWhile isDigitC
      if ds = [] then (intLex, cs)
      else (intLex ++ '.' :: ds, r.dropWhile isDigitC)
    | _ => (intLex, cs)
  match cs2 with
  | e :: r =>
    if e = 'e' ∨ e = 'E' then
      let (sg, r1) :=
        match r with
        | '+' :: r2 => (['+'], r2)
        | '-' :: r2 => (['-'], r2)
        | _ => (([] : List Char), r)
      let ds := r1.takeWhile isDigitC
      if ds = [] then (withFrac, cs2)
      else (withFrac ++ e :: sg ++ ds, r1.dropWhile isDigitC)
    else (withFrac, cs2)
  | [] => (withFrac, cs2)

mutual

/-- Parse one JSON value at the head of the input (no leading whitespace),
as `json.scanner._scan_once` does.  Fuel bounds the recursion depth; the
callers pass `length + 1`, which can never be exhausted. -/
def parseValue : Nat → List Char → Option (Json × List Char)
  | 0, _ => none
  | fuel + 1, cs =>
    match cs with
    | '{' :: rest => parseObjBody fuel [] (rest.dropWhile jsonWs) true
    | '[' :: rest => parseArrBody fuel [] (rest.dropWhile jsonWs) true
    | '"' :: rest => do
      let (s, r) ← parseStringBody rest
      some (Json.str (String.mk s), r)
    | _ =>
      if ("true".toList).isPrefixOf cs then some (Json.bool true, cs.drop 4)
      else if ("false".toList).isPrefixOf cs then some (Json.bool false, cs.drop 5)
      else if ("null".toList).isPrefixOf cs then some (Json.null, cs.drop 4)
      else
        match scanNumber cs with
        | some (intLex, r) =>
          let (lex, r2) := scanFracExp intLex r
          some (Json.num (String.mk lex), r2)
        | none =>
          if ("NaN".toList).isPrefixOf cs then some (Json.num ("NaN"), cs.drop 3)
          else if ("Infinity".toList).isPrefixOf cs then
            some (Json.num ("Infinity"), cs.drop 8)
          else if ("-Infinity".toList).isPrefixOf cs then
            some (Json.num ("-Infinity"), cs.drop 9)
          else none

/-- Parse the members of an object after `{` (whitespace already skipped).
`first` is true before any member has been read. -/
def parseObjBody : Nat → List (String × Json) → List Char → Bool →
    Option (Json × List Char)
  | 0, _, _, _ => none
  | _ + 1, acc, '}' :: rest, true => some (Json.obj acc, rest)
  | fuel + 1, acc, '"' :: rest, _ => do
    let (k, r1) ← parseStringBody rest
    match (r1.dropWhile jsonWs) with
    | ':' :: r2 => do
      let (v, r3) ← parseValue fuel (r2.dropWhile jsonWs)
      let acc2 := insertKV acc (String.mk k) v
      match (r3.dropWhile jsonWs) with
      | ',' :: r4 => parseObjBody fuel acc2 (r4.dropWhile jsonWs) false
      | '}' :: r4 => some (Json.obj acc2, r4)
      | _ => none
    | _ => none
  | _ + 1, _, _, _ => none

/-- Parse the items of an array after `[` (whitespace already skipped).
`first` is true before any item has been read. -/
def parseArrBody : Nat → List Json → List Char → Bool →
    Option (Json × List Char)
  | 0, _, _, _ => none
  | _ + 1, acc, ']' :: rest, true => some (Json.arr acc.reverse, rest)
  | fuel + 1, acc, cs, _ => do
    let (v, r1) ← parseValue fuel cs
    match (r1.dropWhile jsonWs) with
    | ',' :: r2 => parseArrBody fuel (v :: acc) (r2.dropWhile jsonWs) false
    | ']' :: r2 => some (Json.arr (v :: acc).reverse, r2)
    | _ => none

end

/-- `json.loads`: skip leading whitespace, parse one value, require only
whitespace after it. -/
def jsonParse (s : String) : Option Json :=
  let cs := s.toList.dropWhile jsonWs
  match parseValue (cs.length + 1) cs with
  | some (v, rest) => if rest.dropWhile jsonWs = [] then some v else none
  | none => none

/-! ### Rung 2: `extract_json_from_text` (`src/schemas.py` 17-54) -/

/-- Split a character list at the first occurrence of `pat` (leftmost match,
as a regex literal would find): returns the part before and the part after
the occurrence. -/
def splitFirst (pat : List Char) : List Char → Option (List Char × List Char)
  | [] => if pat.isPrefixOf ([] : List Char) then some ([], []) else none
  | c :: rest =>
    if pat.isPrefixOf (c :: rest) then some ([], (c :: rest).drop pat.length)
    else (splitFirst pat rest).map (fun p => (c :: p.1, p.2))

/-- `re.findall(open + lazy-group + close, text)` for the delimiter patterns of
strategy 2: each match is the (stripped) text between an occurrence of
`openPat` and the next occurrence of `closePat`; scanning resumes after the
closing delimiter (matches do not overlap).  The surrounding `\s*` of the
source patterns is absorbed by the strip, exactly as the code re-strips each
match. -/
def findallBlocks (openPat closePat : List Char) : Nat → List Char → List (List Char)
  | 0, _ => []
  | fuel + 1, cs =>
    match splitFirst openPat cs with
    | none => []
    | some (_, afterOpen) =>
      match splitFirst closePat afterOpen with
      | none => []
      | some (content, rest) => pyStrip content :: findallBlocks openPat closePat fuel rest

/-- Index of the first occurrence of a character (`str.find`). -/
def firstIdx (c : Char) (cs : List Char) : Option Nat := cs.indexOf? c

/-- Index of the last occurrence of a character (`str.rfind`). -/
def lastIdx (c : Char) (cs : List Char) : Option Nat :=
  (cs.reverse.indexOf? c).map (fun i => cs.length - 1 - i)

/-- Does an extracted candidate start with `{` or `[`? -/
def startsBrace (cs : List Char) : Bool :=
  cs.head? == some '{' || cs.head? == some '['

/-- `extract_json_from_text`: strategy 1 takes the stripped text when it is
already delimited; strategy 2 tries fenced blocks (```json, ``` and single
backticks in that order) and returns the first whose stripped content starts
with `{` or `[`; strategies 3 and 4 take the span from the first `{`/`[` to
the last `}`/`]`. -/
def extract_json_from_text (text : String) : Option String :=
  if text = "" then none
  else
    let t := pyStrip text.toList
    if t.head? = some '{' ∧ t.getLast? = some '}' then some (String.mk t)
    else if t.head? = some '[' ∧ t.getLast? = some ']' then some (String.mk t)
    else
      let pats : List (List Char × List Char) :=
        [("```json".toList, "```".toList),
         ("```".toList, "```".toList),
         ("`".toList, "`".toList)]
      let candidates := pats.flatMap (fun pc => findallBlocks pc.1 pc.2 (t.length + 1) t)
      match candidates.find? startsBrace with
      | some m => some (String.mk m)
      | none =>
        match firstIdx '{' t, lastIdx '}' t with
        | some bs, some be =>
          if bs < be then some (String.mk ((t.drop bs).take (be - bs + 1)))
          else
            match firstIdx '[' t, lastIdx ']' t with
            | some ks, some ke =>
              if ks < ke then some (String.mk ((t.drop ks).take (ke - ks + 1))) else none
            | _, _ => none
        | _, _ =>
          match firstIdx '[' t, lastIdx ']' t with
          | some ks, some ke =>
            if ks < ke then some (String.mk ((t.drop ks).take (ke - ks + 1))) else none
          | _, _ => none

/-! ### Rung 3: `fix_common_json_errors` (`src/schemas.py` 57-76) -/

/-- Replace the control characters `[\x00-\x1f\x7f-\x9f]` by a space. -/
def stripCtrl (cs : List Char) : List Char :=
  cs.map (fun c => if c.toNat ≤ 0x1f ∨ (0x7f ≤ c.toNat ∧ c.toNat ≤ 0x9f) then ' ' else c)

/-- `re.sub(",\s*" + close, close, s)` for a closing delimiter: drop a comma
followed by whitespace and the delimiter, scanning left to right. -/
def fixCommaClose (close : Char) : Nat → List Char → List Char
  | 0, cs => cs
  | _ + 1, [] => []
  | fuel + 1, c :: rest =>
    if c = ',' then
      match rest.dropWhile pyIsSpace with
      | d :: r2 => if d = close then close :: fixCommaClose close fuel r2
                   else c :: fixCommaClose close fuel rest
      | [] => c :: fixCommaClose close fuel rest
    else c :: fixCommaClose close fuel rest

/-- Is this character allowed to start a bare identifier key (`[a-zA-Z_]`)? -/
def isIdentStart (c : Char) : Bool :=
  ('a' ≤ c && c ≤ 'z') || ('A' ≤ c && c ≤ 'Z') || c = '_'

/-- Is this an identifier continuation character (`[a-zA-Z0-9_]`)? -/
def isIdentChar (c : Char) : Bool := isIdentStart c || isDigitC c

/-- Try to read `\s* ident \s* :` after a `{` or `,`, as the unquoted-key
pattern does; returns the identifier and the rest after the colon. -/
def tryBareKey (rest : List Char) : Option (List Char × List Char) :=
  match rest.dropWhile pyIsSpace with
  | c1 :: r2 =>
    if isIdentStart c1 then
      let ident := c1 :: r2.takeWhile isIdentChar
      match (r2.dropWhile isIdentChar).dropWhile pyIsSpace with
      | ':' :: r4 => some (ident, r4)
      | _ => none
    else none
  | [] => none

/-- `re.sub(r'(\{|\,)\s*([a-zA-Z_][a-zA-Z0-9_]*)\s*:', r'\1"\2":', s)`:
quote bare keys after `{` or `,`. -/
def fixUnquotedKeys : Nat → List Char → List Char
  | 0, cs => cs
  | _ + 1, [] => []
  | fuel + 1, c :: rest =>
    if c = '{' ∨ c = ',' then
      match tryBareKey rest with
      | some (ident, r4) => c :: '"' :: (ident ++ '"' :: ':' :: fixUnquotedKeys fuel r4)
      | none => c :: fixUnquotedKeys fuel rest
    else c :: fixUnquotedKeys fuel rest

/-- Word character for `\w` (ASCII). -/
def isWordChar (c : Char) : Bool := isIdentChar c

/-- `re.search(r"'\w+':", s)`: is there a single-quoted word key? -/
def hasSingleQuotedKey : Nat → List Char → Bool
  | 0, _ => false
  | _ + 1, [] => false
  | fuel + 1, c :: rest =>
    if c = '\'' then
      let w := rest.takeWhile isWordChar
      match rest.dropWhile isWordChar with
      | '\'' :: ':' :: _ => if w ≠ [] then true else hasSingleQuotedKey fuel rest
      | _ => hasSingleQuotedKey fuel rest
    else hasSingleQuotedKey fuel rest

/-- `re.sub(r"'([^']+)':", r'"\1":', s)`: rewrite single-quoted keys to
double-quoted ones. -/
def subSingleQuotedKeys : Nat → List Char → List Char
  | 0, cs => cs
  | _ + 1, [] => []
  | fuel + 1, c :: rest =>
    if c = '\'' then
      let content := rest.takeWhile (fun x => x ≠ '\'')
      match rest.dropWhile (fun x => x ≠ '\'') with
      | '\'' :: ':' :: r2 =>
        if content ≠ [] then
          '"' :: (content ++ '"' :: ':' :: subSingleQuotedKeys fuel r2)
        else c :: subSingleQuotedKeys fuel rest
      | _ => c :: subSingleQuotedKeys fuel rest
    else c :: subSingleQuotedKeys fuel rest

/-- `fix_common_json_errors`: strip control characters, drop trailing commas
before `}` and `]`, quote bare keys, then normalise single-quoted keys when
the key search succeeds. -/
def fix_common_json_errors (s : String) : String :=
  if s = "" then s
  else
    let cs := stripCtrl s.toList
    let cs := fixCommaClose '}' (cs.length + 1) cs
    let cs := fixCommaClose ']' (cs.length + 1) cs
    let cs := fixUnquotedKeys (cs.length + 1) cs
    let cs :=
      if hasSingleQuotedKey (cs.length + 1) cs then
        subSingleQuotedKeys (cs.length + 1) cs
      else cs
    String.mk cs

/-! ### Rung 4: `repair_truncated_json` (`src/schemas.py` 79-112) -/

/-- The quote-parity scan of `repair_truncated_json`: walk the text tracking
whether we are inside a string, treating a backslash as escaping the next
character. -/
def quoteParity : List Char → Bool → Bool → Bool
  | [], inString, _ => inString
  | _ :: rest, inString, true => quoteParity rest inString false
  | c :: rest, inString, false =>
    if c = '\\' then quoteParity rest inString true
    else if c = '"' then quoteParity rest (!inString) false
    else quoteParity rest inString false

/-- `re.sub(r',\s*$', '', s)`: drop one dangling trailing comma together with
the whitespace after it. -/
def stripTrailingComma (cs : List Char) : List Char :=
  match cs.reverse.dropWhile pyIsSpace with
  | ',' :: r2 => r2.reverse
  | _ => cs

/-- `repair_truncated_json`: count the surplus of opening delimiters (before
any edits), close an unterminated string, drop a dangling trailing comma, and
append the surplus closing brackets then braces.  A negative surplus appends
nothing (Python's `']' * n` with `n < 0`). -/
def repair_truncated_json (s : String) : String :=
  if s = "" then s
  else
    let cs := s.toList
    let openBraces : Int := (countChar '{' cs : Int) - (countChar '}' cs : Int)
    let openBrackets : Int := (countChar '[' cs : Int) - (countChar ']' cs : Int)
    let inString := quoteParity cs false false
    let cs1 := if inString then cs ++ ['"'] else cs
    let cs2 := stripTrailingComma cs1
    let cs3 := cs2 ++ List.replicate openBrackets.toNat ']'
                   ++ List.replicate openBraces.toNat '}'
    String.mk cs3

/-! ### The ladder: `safe_parse_json` and `_extract_output` -/

/-- The outcome of `safe_parse_json` with a model class: a validated model on
success, the error string otherwise (the Python function returns the pair
`(success, result_or_error)`). -/
inductive ParseOutcome (α : Type) where
  | ok (val : α)
  | err (msg : String)

/-- `safe_parse_json(text, model_class)` (`src/schemas.py` 137-185),
parameterised by the model: `validate` is `model_class.model_validate`
(returning `none` where pydantic would raise, which the source catches and
falls through), and `recover` is `recover_truncated_output(·, model_class)`.
The rungs run in source order: extract, direct parse, error-fixing parse,
truncation-repaired parse, model-specific recovery. -/
def safe_parse_json {α : Type} (text : String) (validate : Json → Option α)
    (recover : String → Option α) : ParseOutcome α :=
  if text = "" then .err "Empty input"
  else
    match extract_json_from_text text with
    | none => .err "No JSON found in text"
    | some js =>
      if js = "" then .err "No JSON found in text"
      else
        match (jsonParse js).bind validate with
        | some a => .ok a
        | none =>
          let fixed := fix_common_json_errors js
          match (jsonParse fixed).bind validate with
          | some a => .ok a
          | none =>
            let repaired := repair_truncated_json fixed
            match (jsonParse repaired).bind validate with
            | some a => .ok a
            | none =>
              match recover text with
              | some a => .ok a
              | none => .err "Failed to parse JSON after all attempts"

/-- The task output consumed by `_extract_output`: an optional pydantic
payload, an optional `json_dict` payload, and the raw text (assumed truthy
when present, as in every call site). -/
structure TaskOut (α : Type) where
  pydantic : Option α
  json_dict : Option Json
  raw : String

/-- The `result` dict built by `_extract_output`: `data` is either a model
dump (left) or a raw JSON dict (right). -/
structure ExtractResult (α : Type) where
  success : Bool
  data : Option (α ⊕ Json)
  raw : String
  error : Option String

/-- `_extract_output` (`src/crew.py` 480-524): record the raw text, prefer
the pydantic payload, then `json_dict`, then run the recovery ladder on the
raw text; on total failure report the ladder's error with the raw text kept. -/
def extract_output {α : Type} (t : TaskOut α) (validate : Json → Option α)
    (recover : String → Option α) : ExtractResult α :=
  match t.pydantic with
  | some m => { success := true, data := some (Sum.inl m), raw := t.raw, error := none }
  | none =>
    match t.json_dict with
    | some j => { success := true, data := some (Sum.inr j), raw := t.raw, error := none }
    | none =>
      match safe_parse_json t.raw validate recover with
      | .ok a => { success := true, data := some (Sum.inl a), raw := t.raw, error := none }
      | .err e => { success := false, data := none, raw := t.raw, error := some e }

/-! ### Validated schema records and field validators (`src/schemas.py` 420-548) -/

/-- `UserStory.validate_priority`: lower-case and strip, defaulting to
`medium` outside the vocabulary. -/
def validate_priority (v : String) : String :=
  let v := stripStr (lowerStr v)
  if v ∈ ["high", "medium", "low"] then v else "medium"

/-- `APIEndpoint.validate_method`: upper-case and strip, defaulting to `GET`
outside the vocabulary. -/
def validate_method (v : String) : String :=
  let v := stripStr (String.mk (v.toList.map Char.toUpper))
  if v ∈ ["GET", "POST", "PUT", "DELETE", "PATCH"] then v else "GET"

/-- `TestCase.validate_status`: lower-case and strip; outside the accepted
vocabulary return `skip`; map `passed` to `pass` and strip the literal
substring `ed` from `failed`/`skipped` (the source's `v.replace('ed', '')`). -/
def validate_status (v : String) : String :=
  let v := stripStr (lowerStr v)
  if v ∉ ["pass", "fail", "skip", "passed", "failed", "skipped"] then "skip"
  else if v = "passed" then "pass"
  else if v ∈ ["failed", "skipped"] then replaceAll v ("ed") ("")
  else v

/-- `TestCase.validate_responsible_agent`: lower-case and strip, defaulting
to the empty string outside the known agent identifiers. -/
def validate_responsible_agent (v : String) : String :=
  let v := stripStr (lowerStr v)
  if v ∈ [AGENT_PRODUCT_OWNER, AGENT_ARCHITECT, AGENT_BACKEND_ENGINEER,
          AGENT_FRONTEND_ENGINEER, ""] then v
  else ""

/-- `TestReport.validate_overall_status`: lower-case and strip; outside the
accepted vocabulary return `needs_review`; map `passed`/`failed` to
`pass`/`fail`. -/
def validate_overall_status (v : String) : String :=
  let v := stripStr (lowerStr v)
  if v ∉ ["pass", "fail", "needs_review", "passed", "failed"] then "needs_review"
  else if v = "passed" then "pass"
  else if v = "failed" then "fail"
  else v

/-- A validated `UserStory` record. -/
structure UserStory where
  id : String
  title : String
  description : String
  priority : String
deriving DecidableEq

/-- Build a `UserStory` as the pydantic constructor does: the priority field
validator runs on construction. -/
def mkUserStory (id title description priority : String) : UserStory :=
  { id := id, title := title, description := description,
    priority := validate_priority priority }

/-- A validated `UserStoriesOutput` record. -/
structure UserStoriesOutput where
  stories : List UserStory
  summary : String
deriving DecidableEq

/-- A validated `DataModel` record (no field validators). -/
structure DataModel where
  name : String
  fields : List String
deriving DecidableEq

/-- A validated `APIEndpoint` record. -/
structure APIEndpoint where
  method : String
  path : String
  description : String
deriving DecidableEq

/-- Build an `APIEndpoint` as the pydantic constructor does: the method field
validator runs on construction. -/
def mkAPIEndpoint (method path description : String) : APIEndpoint :=
  { method := validate_method method, path := path, description := description }

/-- A validated `SystemDesign` record. -/
structure SystemDesign where
  models : List DataModel
  endpoints : List APIEndpoint
  architecture_notes : String
deriving DecidableEq

/-! ### Rung 5: salvage matchers (`src/schemas.py` 188-269)

The salvage functions scan the raw text with `re.finditer` for complete
sub-record objects.  Each regex is written out as a deterministic
character-level matcher: every quantifier in the patterns is followed by a
delimiter outside its character class, so the regex engine's greedy/lazy
matching never needs backtracking and the scan below is its exact semantics. -/

/-- Match a literal at the head of the input. -/
def litP (pat cs : List Char) : Option (List Char) :=
  if pat.isPrefixOf cs then some (cs.drop pat.length) else none

/-- `\s*`: skip whitespace. -/
def wsDrop (cs : List Char) : List Char := cs.dropWhile pyIsSpace

/-- `"([^"]+)"`: a quoted, non-empty run of non-quote characters.  Returns
the group and the rest after the closing quote. -/
def quotedPlus (cs : List Char) : Option (List Char × List Char) :=
  match cs with
  | [] => none
  | c :: rest =>
    if c = '"' then
      if rest.takeWhile (fun x => x ≠ '"') = [] then none
      else
        match rest.dropWhile (fun x => x ≠ '"') with
        | [] => none
        | d :: r2 =>
          if d = '"' then some (rest.takeWhile (fun x => x ≠ '"'), r2) else none
    else none

/-- The body of `((?:[^"\\]|\\.)*)"`: characters other than quote and
backslash, or a backslash followed by any character except newline (`.`
without DOTALL), up to the closing quote.  Returns the raw group (escape
sequences kept verbatim, as regex groups are) and the rest after the
closing quote.  Fuel (always at least `length + 1` at call sites) bounds the
scan. -/
def escRun : Nat → List Char → Option (List Char × List Char)
  | 0, _ => none
  | _ + 1, [] => none
  | fuel + 1, c :: rest =>
    if c = '"' then some ([], rest)
    else if c = '\\' then
      match rest with
      | [] => none
      | c2 :: rest2 =>
        if c2 = '\n' then none
        else (escRun fuel rest2).map (fun p => (c :: c2 :: p.1, p.2))
    else (escRun fuel rest).map (fun p => (c :: p.1, p.2))

/-- `"((?:[^"\\]|\\.)*)"`: opening quote then `escRun`. -/
def quotedEsc (cs : List Char) : Option (List Char × List Char) :=
  match cs with
  | [] => none
  | c :: rest => if c = '"' then escRun (rest.length + 1) rest else none

/-- `\[([^\]]*)\]`: a bracketed run of non-`]` characters. -/
def bracketGroup (cs : List Char) : Option (List Char × List Char) :=
  match cs with
  | [] => none
  | c :: rest =>
    if c = '[' then
      match rest.dropWhile (fun x => x ≠ ']') with
      | [] => none
      | d :: r2 =>
        if d = ']' then some (rest.takeWhile (fun x => x ≠ ']'), r2) else none
    else none

/-- Match `\s*"key"\s*:\s*` (the glue between an opening delimiter or comma
and a field value). -/
def keyGlue (key : String) (cs : List Char) : Option (List Char) :=
  match litP ('"' :: key.toList ++ ['"']) (wsDrop cs) with
  | none => none
  | some cs1 =>
    match litP [':'] (wsDrop cs1) with
    | none => none
    | some cs2 => some (wsDrop cs2)

/-- Match `\s*,\s*` before the next key. -/
def commaGlue (cs : List Char) : Option (List Char) :=
  match litP [','] (wsDrop cs) with
  | none => none
  | some cs1 => some cs1

/-- The captured groups of one complete user-story object. -/
structure StoryG where
  idG : List Char
  titleG : List Char
  descG : List Char
  prioG : List Char
deriving DecidableEq

/-- Match the user-story pattern
`\{\s*"id"\s*:\s*"([^"]+)"\s*,\s*"title"\s*:\s*"([^"]+)"\s*,\s*"description"\s*:\s*"((?:[^"\\]|\\.)*)"\s*,\s*"priority"\s*:\s*"([^"]+)"\s*\}`
at the head of the input. -/
def matchStory (cs0 : List Char) : Option (StoryG × List Char) :=
  match litP ['{'] cs0 with
  | none => none
  | some cs1 =>
  match keyGlue ("id") cs1 with
  | none => none
  | some cs2 =>
  match quotedPlus cs2 with
  | none => none
  | some (idv, cs3) =>
  match commaGlue cs3 with
  | none => none
  | some cs4 =>
  match keyGlue ("title") cs4 with
  | none => none
  | some cs5 =>
  match quotedPlus cs5 with
  | none => none
  | some (titlev, cs6) =>
  match commaGlue cs6 with
  | none => none
  | some cs7 =>
  match keyGlue ("description") cs7 with
  | none => none
  | some cs8 =>
  match quotedEsc cs8 with
  | none => none
  | some (descv, cs9) =>
  match commaGlue cs9 with
  | none => none
  | some cs10 =>
  match keyGlue ("priority") cs10 with
  | none => none
  | some cs11 =>
  match quotedPlus cs11 with
  | none => none
  | some (priov, cs12) =>
  match litP ['}'] (wsDrop cs12) with
  | none => none
  | some cs13 => some (⟨idv, titlev, descv, priov⟩, cs13)

/-- `re.finditer` for the story pattern: scan left to right, collecting
non-overlapping matches (after a match, resume after its end). -/
def finditerStory : Nat → List Char → List StoryG
  | 0, _ => []
  | _ + 1, [] => []
  | fuel + 1, c :: rest =>
    match matchStory (c :: rest) with
    | some (g, r) => g :: finditerStory fuel r
    | none => finditerStory fuel rest

/-- The captured groups of one complete data-model object. -/
structure ModelG where
  nameG : List Char
  fieldsG : List Char
deriving DecidableEq

/-- Match the data-model pattern
`\{\s*"name"\s*:\s*"([^"]+)"\s*,\s*"fields"\s*:\s*\[((?:[^\]]*)?)\]\s*\}`
at the head of the input. -/
def matchModel (cs0 : List Char) : Option (ModelG × List Char) := do
  let cs ← litP ['{'] cs0
  let cs ← keyGlue ("name") cs
  let (namev, cs) ← quotedPlus cs
  let cs ← commaGlue cs
  let cs ← keyGlue ("fields") cs
  let (fieldsv, cs) ← bracketGroup cs
  let cs ← litP ['}'] (wsDrop cs)
  some (⟨namev, fieldsv⟩, cs)

/-- `re.finditer` for the data-model pattern. -/
def finditerModel : Nat → List Char → List ModelG
  | 0, _ => []
  | _ + 1, [] => []
  | fuel + 1, c :: rest =>
    match matchModel (c :: rest) with
    | some (g, r) => g :: finditerModel fuel r
    | none => finditerModel fuel rest

/-- The captured groups of one complete endpoint object. -/
structure EndpointG where
  methodG : List Char
  pathG : List Char
  descG : List Char
deriving DecidableEq

/-- Match the endpoint pattern
`\{\s*"method"\s*:\s*"([^"]+)"\s*,\s*"path"\s*:\s*"([^"]+)"\s*,\s*"description"\s*:\s*"((?:[^"\\]|\\.)*)"\s*\}`
at the head of the input. -/
def matchEndpoint (cs0 : List Char) : Option (EndpointG × List Char) := do
  let cs ← litP ['{'] cs0
  let cs ← keyGlue ("method") cs
  let (methodv, cs) ← quotedPlus cs
  let cs ← commaGlue cs
  let cs ← keyGlue ("path") cs
  let (pathv, cs) ← quotedPlus cs
  let cs ← commaGlue cs
  let cs ← keyGlue ("description") cs
  let (descv, cs) ← quotedEsc cs
  let cs ← litP ['}'] (wsDrop cs)
  some (⟨methodv, pathv, descv⟩, cs)

/-- `re.finditer` for the endpoint pattern. -/
def finditerEndpoint : Nat → List Char → List EndpointG
  | 0, _ => []
  | _ + 1, [] => []
  | fuel + 1, c :: rest =>
    match matchEndpoint (c :: rest) with
    | some (g, r) => g :: finditerEndpoint fuel r
    | none => finditerEndpoint fuel rest

/-- `re.search('"key"\s*:\s*"((?:[^"\\]|\\.)*)"', text)`: find the first
occurrence of a quoted string field and return its raw group. -/
def searchQuotedField (key : String) : Nat → List Char → Option (List Char)
  | 0, _ => none
  | _ + 1, [] => none
  | fuel + 1, c :: rest =>
    match (keyGlue key (c :: rest)).bind quotedEsc with
    | some (g, _) => some g
    | none => searchQuotedField key fuel rest

/-- `re.findall(r'"([^"]+)"', s)`: every quoted non-empty span (used for the
salvaged `fields` list). -/
def findallQuoted : Nat → List Char → List (List Char)
  | 0, _ => []
  | _ + 1, [] => []
  | fuel + 1, c :: rest =>
    match quotedPlus (c :: rest) with
    | some (g, r) => g :: findallQuoted fuel r
    | none => findallQuoted fuel rest

/-- Build the story record from its raw groups, unescaping the description
(`.replace('\\"', '"').replace('\\n', '\n')`) and running the priority
validator, as `_recover_user_stories` does. -/
def storyOfGroups (g : StoryG) : UserStory :=
  mkUserStory (String.mk g.idG) (String.mk g.titleG)
    (replaceAll (replaceAll (String.mk g.descG) ("\\\"") ("\"")) ("\\n") ("\n"))
    (String.mk g.prioG)

/-- `_recover_user_stories` (`src/schemas.py` 208-231): collect every complete
story object; when at least one is found, wrap the list with the first
`summary` string found in the text (or the empty string), else recover
nothing. -/
def recover_user_stories (text : String) : Option UserStoriesOutput :=
  let cs := text.toList
  let stories := (finditerStory (cs.length + 1) cs).map storyOfGroups
  if stories = [] then none
  else
    let summary :=
      match searchQuotedField ("summary") (cs.length + 1) cs with
      | some g => String.mk g
      | none => ""
    some { stories := stories, summary := summary }

/-- Build the data-model record from its raw groups, extracting the quoted
field names from the bracketed group, as `_recover_system_design` does. -/
def modelOfGroups (g : ModelG) : DataModel :=
  { name := String.mk g.nameG,
    fields := (findallQuoted (g.fieldsG.length + 1) g.fieldsG).map String.mk }

/-- Build the endpoint record from its raw groups, unescaping the description
(`.replace('\\"', '"')`) and running the method validator. -/
def endpointOfGroups (g : EndpointG) : APIEndpoint :=
  mkAPIEndpoint (String.mk g.methodG) (String.mk g.pathG)
    (replaceAll (String.mk g.descG) ("\\\"") ("\""))

/-- `_recover_system_design` (`src/schemas.py` 234-269): collect every
complete model and endpoint object; when at least one of the two lists is
non-empty, wrap them — substituting a fabricated default record for an empty
list — with the first `architecture_notes` string found (or empty). -/
def recover_system_design (text : String) : Option SystemDesign :=
  let cs := text.toList
  let models := (finditerModel (cs.length + 1) cs).map modelOfGroups
  let endpoints := (finditerEndpoint (cs.length + 1) cs).map endpointOfGroups
  if models = [] ∧ endpoints = [] then none
  else
    let notes :=
      match searchQuotedField ("architecture_notes") (cs.length + 1) cs with
      | some g => String.mk g
      | none => ""
    some
      { models :=
          if models = [] then [{ name := "Item", fields := ["id: int", "name: str"] }]
          else models,
        endpoints :=
          if endpoints = [] then
            [{ method := "GET", path := "/api/items", description := "Get all items" }]
          else endpoints,
        architecture_notes := notes }

/-! ### QA report data and the decision paths (`src/crew.py` 48-56, 639-751, 822-840)

The stored QA report is the `model_dump` of a validated `TestReport`, so it
is represented by a typed record with exactly those fields (`issues_by_agent`
keeps the dict's insertion order as an association list). -/

/-- One test case of the stored QA report. -/
structure TCData where
  id : String
  description : String
  status : String
  notes : String
  responsible_agent : String
deriving DecidableEq

/-- The stored QA report (`TestReport.model_dump()`). -/
structure TRData where
  overall_status : String
  test_cases : List TCData
  summary : String
  recommendations : List String
  issues_by_agent : List (String × List String)
deriving DecidableEq

/-- The `ManagerDecision` object of `src/crew.py`. -/
structure ManagerDecision where
  should_continue : Bool
  agents_to_rerun : List String
  reasoning : String
  iteration_goal : String
deriving DecidableEq

/-- The fields read out of a successfully parsed decision proposal
(`parsed.get(...)` with the source's defaults already applied). -/
structure ParsedDecision where
  should_continue : Bool
  agents_to_rerun : List String
  reasoning : String
  iteration_goal : String
deriving DecidableEq

/-- The `valid_agents` list of `_get_manager_decision` (line 671). -/
def validAgents : List String :=
  [AGENT_PRODUCT_OWNER, AGENT_ARCHITECT, AGENT_BACKEND_ENGINEER, AGENT_FRONTEND_ENGINEER]

/-- The primary-path post-processing of `_get_manager_decision` (lines
664-675): copy the parsed fields, drop every proposed rerun name outside
`validAgents`, and close the survivors under `_add_agent_dependencies`. -/
def manager_decision_from_parsed (p : ParsedDecision) : ManagerDecision :=
  let accepted := p.agents_to_rerun.filter (fun a => decide (a ∈ validAgents))
  { should_continue := p.should_continue,
    agents_to_rerun := add_agent_dependencies accepted,
    reasoning := p.reasoning,
    iteration_goal := p.iteration_goal }

/-- `_check_qa_passed` on `{"success": True, "data": report}` (lines 822-840):
the overall status must normalise to `pass` and no test case may have a
failing status. -/
def check_qa_passed (report : TRData) : Bool :=
  lowerStr report.overall_status == "pass" &&
    report.test_cases.all (fun tc => lowerStr tc.status != "fail")

/-- `_get_agents_with_issues_from_report` (lines 708-732): the agents with a
non-empty `issues_by_agent` entry together with the responsible agents of
failing test cases.  The Python function builds a `set`; this list models it
up to membership (the only way the callers consume it: emptiness, and the
order-normalising `_add_agent_dependencies`). -/
def agents_with_issues_from_report (report : TRData) : List String :=
  (report.issues_by_agent.filter (fun p => !p.2.isEmpty)).map (fun p => p.1) ++
    (report.test_cases.filter
      (fun tc => lowerStr tc.status == "fail" && tc.responsible_agent != "")).map
      (fun tc => tc.responsible_agent)

/-- `_get_fallback_decision` (lines 686-706) on the stored QA report: stop
when the QA pass check holds; otherwise rerun the dependency closure of the
agents with issues, continuing exactly when that set is non-empty.  (The
`reasoning` join of the primary branch iterates a Python `set`, whose order
is unspecified; it is rendered here from the model list and no theorem
depends on it.) -/
def get_fallback_decision (report : TRData) : ManagerDecision :=
  if check_qa_passed report then
    { should_continue := false, agents_to_rerun := [],
      reasoning := "QA passed, no issues found", iteration_goal := "" }
  else
    let agents := agents_with_issues_from_report report
    if agents.isEmpty then
      { should_continue := false, agents_to_rerun := [],
        reasoning := "No specific agents identified with issues", iteration_goal := "" }
    else
      { should_continue := true,
        agents_to_rerun := add_agent_dependencies agents,
        reasoning := "Issues found for: " ++ String.intercalate ", " agents,
        iteration_goal := "Fix identified issues" }

/-! ### The context manager (`src/crew.py` 58-429)

Stored phase data are the `model_dump` dicts of the validated schemas, so
each slot is typed by the corresponding record. -/

/-- One stored code file. -/
structure CodeFile where
  filename : String
  content : String
  description : String
deriving DecidableEq

/-- Stored backend/frontend code (`BackendCode`/`FrontendCode .model_dump()`). -/
structure CodeData where
  files : List CodeFile
  setup_instructions : String
deriving DecidableEq

/-- The `ContextManager` state. -/
structure ContextState where
  vibe_prompt : String
  user_stories : Option UserStoriesOutput
  system_design : Option SystemDesign
  backend_code : Option CodeData
  frontend_code : Option CodeData
  test_report : Option TRData
deriving DecidableEq

/-- One phase output dict as passed to the `update_*` methods. -/
structure PhaseOutput (α : Type) where
  success : Bool
  data : Option α
  raw : String
  error : Option String

/-- `ContextManager.update_user_stories`: store the data only when the phase
output exists and is successful. -/
def update_user_stories (st : ContextState) (o : Option (PhaseOutput UserStoriesOutput)) :
    ContextState :=
  match o with
  | some d => if d.success then { st with user_stories := d.data } else st
  | none => st

/-- `ContextManager.update_system_design`. -/
def update_system_design (st : ContextState) (o : Option (PhaseOutput SystemDesign)) :
    ContextState :=
  match o with
  | some d => if d.success then { st with system_design := d.data } else st
  | none => st

/-- `ContextManager.update_backend_code`. -/
def update_backend_code (st : ContextState) (o : Option (PhaseOutput CodeData)) :
    ContextState :=
  match o with
  | some d => if d.success then { st with backend_code := d.data } else st
  | none => st

/-- `ContextManager.update_frontend_code`. -/
def update_frontend_code (st : ContextState) (o : Option (PhaseOutput CodeData)) :
    ContextState :=
  match o with
  | some d => if d.success then { st with frontend_code := d.data } else st
  | none => st

/-- `ContextManager.update_test_report`. -/
def update_test_report (st : ContextState) (o : Option (PhaseOutput TRData)) :
    ContextState :=
  match o with
  | some d => if d.success then { st with test_report := d.data } else st
  | none => st

/-- `_format_user_stories_summary`. -/
def format_user_stories_summary (st : ContextState) : String :=
  match st.user_stories with
  | none => "No user stories available."
  | some us =>
    let parts := ["## User Stories:"] ++
      us.stories.map (fun s =>
        "- [" ++ s.id ++ "] (" ++ s.priority ++ ") " ++ s.title ++ ": " ++ s.description)
    let parts :=
      if us.summary ≠ "" then parts ++ ["\nSummary: " ++ us.summary] else parts
    String.intercalate "\n" parts

/-- `_format_system_design_summary`. -/
def format_system_design_summary (st : ContextState) : String :=
  match st.system_design with
  | none => "No system design available."
  | some d =>
    let parts := ["## System Design:"]
    let parts :=
      if d.models ≠ [] then
        parts ++ ["\n### Data Models:"] ++
          d.models.map (fun m =>
            "- " ++ m.name ++ ": " ++
              (if m.fields = [] then "no fields" else String.intercalate ", " m.fields))
      else parts
    let parts :=
      if d.endpoints ≠ [] then
        parts ++ ["\n### API Endpoints:"] ++
          d.endpoints.map (fun e => "- " ++ e.method ++ " " ++ e.path ++ ": " ++ e.description)
      else parts
    let parts :=
      if d.architecture_notes ≠ "" then parts ++ ["\nNotes: " ++ d.architecture_notes]
      else parts
    String.intercalate "\n" parts

/-- Substring test (Python `in` on strings). -/
def containsSub (needle hay : String) : Bool := decide (needle.toList <:+: hay.toList)

/-- `_format_backend_endpoints_summary`: only the route-decorator lines of
the main/route files, with the setup line, falling back to the raw file list
when nothing else was collected. -/
def format_backend_endpoints_summary (st : ContextState) : String :=
  match st.backend_code with
  | none => "No backend endpoints available."
  | some bc =>
    let parts := ["## Backend API Endpoints:"]
    let lines := bc.files.flatMap (fun f =>
      if containsSub ("main") (lowerStr f.filename) ||
         containsSub ("route") (lowerStr f.filename) then
        (f.content.splitOn "\n").filterMap (fun line =>
          let l := stripStr line
          if l.startsWith ("@app.") || l.startsWith ("@router.") then some ("- " ++ l)
          else none)
      else [])
    let parts := parts ++ lines
    let parts :=
      if bc.setup_instructions ≠ "" then parts ++ ["\nSetup: " ++ bc.setup_instructions]
      else parts
    let parts :=
      if parts.length = 1 then
        parts ++ ["\nBackend files:"] ++
          bc.files.map (fun f => "- " ++ f.filename ++ ": " ++ f.description)
      else parts
    String.intercalate "\n" parts

/-- `issues_by_agent.get(agent_name, [])`. -/
def issuesFor (tr : TRData) (agent : String) : List String :=
  match tr.issues_by_agent.find? (fun p => p.1 == agent) with
  | some p => p.2
  | none => []

/-- `_format_qa_feedback`: the issues, failed test cases and recommendations
relevant to one agent, or the empty string. -/
def format_qa_feedback (st : ContextState) (agent : String) : String :=
  match st.test_report with
  | none => ""
  | some tr =>
    let fb : List String := []
    let agentIssues := issuesFor tr agent
    let fb :=
      if agentIssues ≠ [] then
        fb ++ ["Issues found for your component:"] ++ agentIssues.map (fun i => "  - " ++ i)
      else fb
    let failed := tr.test_cases.filter
      (fun tc => lowerStr tc.status == "fail" && tc.responsible_agent == agent)
    let fb :=
      if failed ≠ [] then
        fb ++ ["\nFailed test cases:"] ++
          failed.flatMap (fun tc =>
            ["  - " ++ tc.id ++ ": " ++ tc.description] ++
              (if tc.notes ≠ "" then ["    Notes: " ++ tc.notes] else []))
      else fb
    let fb :=
      if tr.recommendations ≠ [] then
        fb ++ ["\nRecommendations:"] ++ tr.recommendations.map (fun r => "  - " ++ r)
      else fb
    if fb = [] then "" else String.intercalate "\n" fb

/-- `_format_previous_output_summary`. -/
def format_previous_output_summary (st : ContextState) (agent : String) : String :=
  if agent = AGENT_PRODUCT_OWNER ∧ st.user_stories.isSome then
    "\n## Your Previous User Stories (to be updated):\n" ++ format_user_stories_summary st
  else if agent = AGENT_ARCHITECT ∧ st.system_design.isSome then
    "\n## Your Previous System Design (to be updated):\n" ++ format_system_design_summary st
  else if agent = AGENT_BACKEND_ENGINEER ∧ st.backend_code.isSome then
    "\n## Your Previous Backend Files (to be updated): " ++
      String.intercalate ", "
        (((st.backend_code.map (fun bc => bc.files)).getD []).map (fun f => f.filename))
  else if agent = AGENT_FRONTEND_ENGINEER ∧ st.frontend_code.isSome then
    "\n## Your Previous Frontend Files (to be updated): " ++
      String.intercalate ", "
        (((st.frontend_code.map (fun fc => fc.files)).getD []).map (fun f => f.filename))
  else ""

/-- `get_context_for_frontend_engineer` (lines 382-399): the user-stories,
system-design and backend-endpoint summaries, plus — on an iteration pass —
the agent's previous output and its QA feedback. -/
def get_context_for_frontend_engineer (st : ContextState) (is_iteration : Bool) : String :=
  let parts := [format_user_stories_summary st, format_system_design_summary st,
                format_backend_endpoints_summary st]
  let parts :=
    if is_iteration then
      let prev := format_previous_output_summary st AGENT_FRONTEND_ENGINEER
      let parts := if prev ≠ "" then parts ++ [prev] else parts
      let fb := format_qa_feedback st AGENT_FRONTEND_ENGINEER
      if fb ≠ "" then
        parts ++ ["\n## QA Feedback (Please address these issues):\n" ++ fb]
      else parts
    else parts
  String.intercalate "\n\n" parts

/-! ### Concrete instances used by the theorems below -/

/-- A QA report with zero failing test cases but a non-empty
`issues_by_agent` entry (and a non-`pass` overall status). -/
def reportIssuesNoFailures : TRData :=
  { overall_status := "needs_review",
    test_cases := [⟨"TC001", "app boots", "pass", "", ""⟩],
    summary := "",
    recommendations := [],
    issues_by_agent := [(AGENT_ARCHITECT, ["missing endpoint for delete"])] }

/-- A fully clean QA report: zero failing test cases and empty issue lists. -/
def reportClean : TRData :=
  { overall_status := "needs_review",
    test_cases := [⟨"TC001", "app boots", "pass", "", ""⟩],
    summary := "",
    recommendations := [],
    issues_by_agent := [(AGENT_ARCHITECT, [])] }

/-- A QA report whose pass check holds (overall `pass`, no failing test case)
while an `issues_by_agent` entry is still non-empty. -/
def reportPassWithIssues : TRData :=
  { overall_status := "pass",
    test_cases := [⟨"TC001", "app boots", "pass", "", ""⟩],
    summary := "",
    recommendations := [],
    issues_by_agent := [(AGENT_BACKEND_ENGINEER, ["slow endpoint"])] }

/-- Scenario D's QA report: two failing checks, both owned by the design
stage (`architect`). -/
def reportScenarioD : TRData :=
  { overall_status := "fail",
    test_cases :=
      [⟨"TC001", "schema matches stories", "fail", "missing model", AGENT_ARCHITECT⟩,
       ⟨"TC002", "endpoints cover stories", "fail", "no delete route", AGENT_ARCHITECT⟩],
    summary := "design incomplete",
    recommendations := [],
    issues_by_agent := [] }

/-- Scenario C's raw text: an array of 3 complete user-story records followed
by one cut-off partial record, with the closing bracket missing. -/
def scenarioCInput : String :=
  "[\x7b\"id\": \"US1\", \"title\": \"Add\", \"description\": \"d1\", \"priority\": \"high\"\x7d, " ++
  "\x7b\"id\": \"US2\", \"title\": \"List\", \"description\": \"d2\", \"priority\": \"medium\"\x7d, " ++
  "\x7b\"id\": \"US3\", \"title\": \"Del\", \"description\": \"d3\", \"priority\": \"low\"\x7d, " ++
  "\x7b\"id\": \"US4\", \"title\": \"Edit\", \"descri"

/-- A raw text holding one complete endpoint record and no model record. -/
def fabricationInput : String :=
  "\x7b\"endpoints\": [\x7b\"method\": \"GET\", \"path\": \"/api/users\", " ++
  "\"description\": \"List users\"\x7d]\x7d"

/-- The empty pipeline context (`ContextManager.__init__`). -/
def emptyContextState : ContextState :=
  { vibe_prompt := "", user_stories := none, system_design := none,
    backend_code := none, frontend_code := none, test_report := none }

/-- A QA report with one failing test owned by the frontend engineer. -/
def reportFrontendFailure : TRData :=
  { overall_status := "fail",
    test_cases := [⟨"TC009", "button works", "fail", "", AGENT_FRONTEND_ENGINEER⟩],
    summary := "",
    recommendations := [],
    issues_by_agent := [] }

/-! ## Theorems

### The dependency closure -/

/-- Membership in a dependency list determines both agents. -/
theorem mem_agentDependencies_elim {b a : String} (h : a ∈ agentDependencies b) :
    (b = AGENT_PRODUCT_OWNER ∧
      (a = AGENT_ARCHITECT ∨ a = AGENT_BACKEND_ENGINEER ∨ a = AGENT_FRONTEND_ENGINEER)) ∨
    (b = AGENT_ARCHITECT ∧ (a = AGENT_BACKEND_ENGINEER ∨ a = AGENT_FRONTEND_ENGINEER)) ∨
    (b = AGENT_BACKEND_ENGINEER ∧ a = AGENT_FRONTEND_ENGINEER) := by
  unfold agentDependencies at h
  split_ifs at h with h1 h2 h3
  · exact Or.inl ⟨h1, by simpa using h⟩
  · exact Or.inr (Or.inl ⟨h2, by simpa using h⟩)
  · exact Or.inr (Or.inr ⟨h3, by simpa using h⟩)
  · simp at h

/-- The static dependency map is transitively closed. -/
theorem agentDependencies_trans {c b a : String} (hb : b ∈ agentDependencies c)
    (ha : a ∈ agentDependencies b) : a ∈ agentDependencies c := by
  rcases mem_agentDependencies_elim hb with ⟨hc, hb'⟩ | ⟨hc, hb'⟩ | ⟨hc, hb'⟩ <;> subst hc
  · rcases mem_agentDependencies_elim ha with ⟨_, h | h | h⟩ | ⟨_, h | h⟩ | ⟨_, h⟩ <;>
      subst h <;> decide
  · rcases hb' with hb1 | hb1 <;> subst hb1
    · rcases mem_agentDependencies_elim ha with ⟨h, _⟩ | ⟨h, _⟩ | ⟨h, ha'⟩
      · exact absurd h (by decide)
      · exact absurd h (by decide)
      · subst ha'; decide
    · rcases mem_agentDependencies_elim ha with ⟨h, _⟩ | ⟨h, _⟩ | ⟨h, _⟩ <;>
        exact absurd h (by decide)
  · subst hb'
    rcases mem_agentDependencies_elim ha with ⟨h, _⟩ | ⟨h, _⟩ | ⟨h, _⟩ <;>
      exact absurd h (by decide)

/-- Membership in `add_agent_dependencies`: the output holds exactly the known
agents that are requested or downstream of a requested agent. -/
theorem mem_add_agent_dependencies {S : List String} {a : String} :
    a ∈ add_agent_dependencies S ↔
      a ∈ executionOrder ∧ (a ∈ S ∨ ∃ b ∈ S, a ∈ agentDependencies b) := by
  simp [add_agent_dependencies, List.mem_filter, List.mem_append, List.mem_flatMap]

/-- `_add_agent_dependencies` is idempotent on every input list. -/
theorem add_agent_dependencies_idem (S : List String) :
    add_agent_dependencies (add_agent_dependencies S) = add_agent_dependencies S := by
  apply List.filter_congr
  intro a ha
  rw [decide_eq_decide]
  constructor
  · intro h
    rcases List.mem_append.mp h with h | h
    · rcases (mem_add_agent_dependencies.mp h).2 with h' | ⟨b, hbS, hba⟩
      · exact List.mem_append.mpr (Or.inl h')
      · exact List.mem_append.mpr (Or.inr (List.mem_flatMap.mpr ⟨b, hbS, hba⟩))
    · rcases List.mem_flatMap.mp h with ⟨b, hbT, hab⟩
      rcases (mem_add_agent_dependencies.mp hbT).2 with h' | ⟨c, hcS, hbc⟩
      · exact List.mem_append.mpr (Or.inr (List.mem_flatMap.mpr ⟨b, h', hab⟩))
      · exact List.mem_append.mpr
          (Or.inr (List.mem_flatMap.mpr ⟨c, hcS, agentDependencies_trans hbc hab⟩))
  · intro h
    refine List.mem_append.mpr (Or.inl (mem_add_agent_dependencies.mpr ⟨ha, ?_⟩))
    rcases List.mem_append.mp h with h' | h'
    · exact Or.inl h'
    · rcases List.mem_flatMap.mp h' with ⟨b, hb, hab⟩
      exact Or.inr ⟨b, hb, hab⟩

/-- `_add_agent_dependencies` is monotonic with respect to membership. -/
theorem add_agent_dependencies_mono {S T : List String} (h : ∀ x ∈ S, x ∈ T) :
    ∀ a ∈ add_agent_dependencies S, a ∈ add_agent_dependencies T := by
  intro a ha
  rcases mem_add_agent_dependencies.mp ha with ⟨hexec, h' | ⟨b, hb, hba⟩⟩
  · exact mem_add_agent_dependencies.mpr ⟨hexec, Or.inl (h _ h')⟩
  · exact mem_add_agent_dependencies.mpr ⟨hexec, Or.inr ⟨b, h _ hb, hba⟩⟩

/-- The rerun list produced by `_add_agent_dependencies` only ever names known
stages. -/
theorem add_agent_dependencies_subset (S : List String) :
    ∀ a ∈ add_agent_dependencies S, a ∈ executionOrder :=
  fun _ ha => (mem_add_agent_dependencies.mp ha).1

/-- C1: over the static `AGENT_DEPENDENCIES` map, the dependency closure
computed by `_add_agent_dependencies` is idempotent and monotonic on sets of
known agent identifiers, and maps the empty set to the empty set. -/
theorem closure_idempotent_monotone_empty :
    (∀ S : List String, (∀ x ∈ S, x ∈ executionOrder) →
      add_agent_dependencies (add_agent_dependencies S) = add_agent_dependencies S) ∧
    (∀ S T : List String, (∀ x ∈ S, x ∈ executionOrder) → (∀ x ∈ T, x ∈ executionOrder) →
      (∀ x ∈ S, x ∈ T) →
      ∀ a ∈ add_agent_dependencies S, a ∈ add_agent_dependencies T) ∧
    add_agent_dependencies [] = [] := by
  refine ⟨fun S _ => add_agent_dependencies_idem S,
          fun S T _ _ hST => add_agent_dependencies_mono hST, ?_⟩
  decide

/-- Witness for C1 at concrete known-agent sets. -/
theorem closure_idempotent_monotone_empty_witness :
    ((∀ x ∈ ([AGENT_ARCHITECT] : List String), x ∈ executionOrder) ∧
      add_agent_dependencies (add_agent_dependencies [AGENT_ARCHITECT]) =
        add_agent_dependencies [AGENT_ARCHITECT]) ∧
    AGENT_BACKEND_ENGINEER ∈ add_agent_dependencies [AGENT_PRODUCT_OWNER, AGENT_ARCHITECT] := by
  refine ⟨⟨by decide, closure_idempotent_monotone_empty.1 [AGENT_ARCHITECT] (by decide)⟩, ?_⟩
  exact closure_idempotent_monotone_empty.2.1 [AGENT_ARCHITECT]
    [AGENT_PRODUCT_OWNER, AGENT_ARCHITECT] (by decide) (by decide) (by decide)
    AGENT_BACKEND_ENGINEER (by decide)

/-! ### C6: the primary decision path -/

/-- C6: on the planner's primary path, every unknown stage name in a parsed
proposal is dropped and the dependency closure is applied, so the returned
`agents_to_rerun` is always a closure-closed subset of the known stage set —
for every proposal, without any crash (the function is total). -/
theorem primary_decision_closure_closed (p : ParsedDecision) :
    (∀ a ∈ (manager_decision_from_parsed p).agents_to_rerun, a ∈ validAgents) ∧
    add_agent_dependencies ((manager_decision_from_parsed p).agents_to_rerun) =
      (manager_decision_from_parsed p).agents_to_rerun := by
  constructor
  · intro a ha
    have : a ∈ executionOrder := add_agent_dependencies_subset _ a ha
    simpa [validAgents, executionOrder] using this
  · exact add_agent_dependencies_idem _

/-! ### C2 and C5: the fallback decision -/

/-- C2 (corrected): the deterministic fallback returns `shouldContinue =
false` for every QA report with zero failing test cases **and** no non-empty
`issues_by_agent` entry; on the primary path `shouldContinue` is copied from
the parsed proposal and is not constrained by the QA report at all. -/
theorem fallback_stops_on_clean_report (R : TRData)
    (hfail : ∀ tc ∈ R.test_cases, lowerStr tc.status ≠ "fail")
    (hissues : ∀ p ∈ R.issues_by_agent, p.2 = []) :
    (get_fallback_decision R).should_continue = false ∧
    ∀ p : ParsedDecision,
      (manager_decision_from_parsed p).should_continue = p.should_continue := by
  refine ⟨?_, fun _ => rfl⟩
  have hempty : agents_with_issues_from_report R = [] := by
    unfold agents_with_issues_from_report
    have h1 : (R.issues_by_agent.filter (fun p => !p.2.isEmpty)) = [] := by
      rw [List.filter_eq_nil_iff]
      intro p hp
      simp [hissues p hp]
    have h2 : (R.test_cases.filter
        (fun tc => lowerStr tc.status == "fail" && tc.responsible_agent != "")) = [] := by
      rw [List.filter_eq_nil_iff]
      intro tc htc
      simp [hfail tc htc]
    rw [h1, h2]
    rfl
  unfold get_fallback_decision
  split
  · rfl
  · simp [hempty]

/-- Counterexample to C2 as stated: on a QA report with zero failing test
cases but a non-empty `issues_by_agent` entry, the fallback path returns
`shouldContinue = true`. -/
theorem fallback_stops_on_clean_report_cex :
    (∀ tc ∈ reportIssuesNoFailures.test_cases, lowerStr tc.status ≠ "fail") ∧
    (get_fallback_decision reportIssuesNoFailures).should_continue = true := by
  decide

/-- Witness for C2's amended theorem on a concrete clean report. -/
theorem fallback_stops_on_clean_report_witness :
    (∀ tc ∈ reportClean.test_cases, lowerStr tc.status ≠ "fail") ∧
    (∀ p ∈ reportClean.issues_by_agent, p.2 = []) ∧
    (get_fallback_decision reportClean).should_continue = false :=
  ⟨by decide, by decide,
    (fallback_stops_on_clean_report reportClean (by decide) (by decide)).1⟩

/-- C5 (corrected): whenever the QA pass check fails (some test fails or the
overall status is not `pass`), the fallback decision equals the deterministic
rule — the rerun list is the dependency closure of the owning agents of the
report's issues (from `issues_by_agent` entries and failed test cases), and
`shouldContinue` holds exactly when that owner set is non-empty.  (When the
pass check holds, the fallback instead stops with an empty rerun list even if
`issues_by_agent` entries are non-empty.) -/
theorem fallback_deterministic_rule (R : TRData) (h : check_qa_passed R = false) :
    (get_fallback_decision R).agents_to_rerun =
      add_agent_dependencies (agents_with_issues_from_report R) ∧
    ((get_fallback_decision R).should_continue = true ↔
      agents_with_issues_from_report R ≠ []) := by
  unfold get_fallback_decision
  rw [h]
  by_cases hA : agents_with_issues_from_report R = []
  · simp [hA]
    decide
  · simp [hA, List.isEmpty_iff]

/-- Counterexample to C5 as stated: when the pass check holds but an
`issues_by_agent` entry is non-empty, the fallback stops although the claimed
rule (`shouldContinue ⟺ closure of owners ≠ ∅`) demands continuing. -/
theorem fallback_deterministic_rule_cex :
    (get_fallback_decision reportPassWithIssues).should_continue = false ∧
    agents_with_issues_from_report reportPassWithIssues = [AGENT_BACKEND_ENGINEER] ∧
    add_agent_dependencies [AGENT_BACKEND_ENGINEER] ≠ [] := by
  decide

/-- Witness for C5's amended theorem: Scenario D.  Both failing checks are
owned by the design stage, and the fallback reruns the architect together
with every stage downstream of it. -/
theorem fallback_deterministic_rule_witness :
    check_qa_passed reportScenarioD = false ∧
    (get_fallback_decision reportScenarioD).agents_to_rerun =
      add_agent_dependencies (agents_with_issues_from_report reportScenarioD) ∧
    (get_fallback_decision reportScenarioD).agents_to_rerun =
      [AGENT_ARCHITECT, AGENT_BACKEND_ENGINEER, AGENT_FRONTEND_ENGINEER] :=
  ⟨by decide, (fallback_deterministic_rule reportScenarioD (by decide)).1, by decide⟩

/-! ### C10: the enumerated-field validators -/

/-- C10 (code bug): `TestCase.validate_status` normalises `passed` and
`failed`, but `skipped` is sent through `v.replace('ed', '')`, which removes
the first occurrence of `ed` and yields the out-of-vocabulary value `skipp`
instead of `skip`.  The neighbouring validators behave as documented. -/
theorem validate_status_skipped_bug :
    validate_status ("skipped") = "skipp" ∧
    ("skipp" ∉ (["pass", "fail", "skip"] : List String)) ∧
    validate_status ("passed") = "pass" ∧
    validate_status ("failed") = "fail" ∧
    validate_status ("SKIP ") = "skip" ∧
    validate_status ("unknown") = "skip" ∧
    validate_overall_status ("passed") = "pass" ∧
    validate_overall_status ("failed") = "fail" ∧
    validate_overall_status ("weird") = "needs_review" ∧
    validate_responsible_agent ("Architect ") = AGENT_ARCHITECT ∧
    validate_responsible_agent ("someone else") = "" := by
  decide

/-! ### C7: truncation repair -/

/-- Dropping a `p`-prefix cannot change the count of a character that does
not satisfy `p`. -/
theorem countChar_dropWhile (c : Char) (p : Char → Bool) (hc : p c = false)
    (l : List Char) : countChar c (l.dropWhile p) = countChar c l := by
  conv_rhs => rw [← List.takeWhile_append_dropWhile (p := p) (l := l)]
  unfold countChar
  rw [List.count_append]
  have : (l.takeWhile p).count c = 0 := by
    rw [List.count_eq_zero]
    intro hmem
    have := List.mem_takeWhile_imp hmem
    rw [hc] at this
    exact Bool.noConfusion this
  omega

/-- The trailing-comma strip of `repair_truncated_json` only removes
whitespace and a comma, so other character counts are unchanged. -/
theorem countChar_stripTrailingComma (c : Char) (hc : pyIsSpace c = false)
    (hcomma : c ≠ ',') (cs : List Char) :
    countChar c (stripTrailingComma cs) = countChar c cs := by
  unfold stripTrailingComma
  split
  next r2 heq =>
    have h1 : countChar c (cs.reverse.dropWhile pyIsSpace) = countChar c cs.reverse :=
      countChar_dropWhile c pyIsSpace hc cs.reverse
    rw [heq] at h1
    have h2 : countChar c (',' :: r2) = countChar c r2 := by
      unfold countChar
      rw [List.count_cons]
      simp [hcomma, Ne.symm hcomma]
    unfold countChar at *
    rw [List.count_reverse] at h1 ⊢
    omega
  next => rfl

/-- Counting distributes over append. -/
theorem countChar_append (c : Char) (l1 l2 : List Char) :
    countChar c (l1 ++ l2) = countChar c l1 + countChar c l2 := by
  unfold countChar
  rw [List.count_append]

/-- A replicate of a different character contributes no occurrences. -/
theorem countChar_replicate_ne (c d : Char) (h : c ≠ d) (n : Nat) :
    countChar c (List.replicate n d) = 0 := by
  unfold countChar
  rw [List.count_replicate]
  simp [h, Ne.symm h]

/-- A replicate of the same character contributes its length. -/
theorem countChar_replicate_self (c : Char) (n : Nat) :
    countChar c (List.replicate n c) = n := by
  unfold countChar
  rw [List.count_replicate]
  simp

/-- C7 (corrected): whenever the input has at least as many opening as
closing delimiters of each kind, `repair_truncated_json` appends exactly the
surplus of closers — counted separately for brackets and braces — so the
output has equal counts of `[`/`]` and of `{`/`}`.  (With an excess of
closers the function appends nothing and the output stays unbalanced, which
corrects the claim's unconditional balance statement.) -/
theorem repair_truncated_json_balances (s : String)
    (hbrace : countChar '}' s.toList ≤ countChar '{' s.toList)
    (hbracket : countChar ']' s.toList ≤ countChar '[' s.toList) :
    countChar '[' (repair_truncated_json s).toList =
      countChar ']' (repair_truncated_json s).toList ∧
    countChar '{' (repair_truncated_json s).toList =
      countChar '}' (repair_truncated_json s).toList := by
  by_cases hs : s = ""
  · subst hs; exact ⟨rfl, rfl⟩
  · have hrepair : (repair_truncated_json s).toList =
        stripTrailingComma
            (if quoteParity s.toList false false then s.toList ++ ['"'] else s.toList)
          ++ List.replicate
              (((countChar '[' s.toList : Int) - (countChar ']' s.toList : Int)).toNat) ']'
          ++ List.replicate
              (((countChar '{' s.toList : Int) - (countChar '}' s.toList : Int)).toNat) '}' := by
      simp only [repair_truncated_json, if_neg hs]
      rfl
    have hquote : ∀ c : Char, c ≠ '"' →
        countChar c (if quoteParity s.toList false false then s.toList ++ ['"']
          else s.toList) = countChar c s.toList := by
      intro c hcq
      split
      · rw [countChar_append]
        have h0 : countChar c ['"'] = 0 := by
          unfold countChar
          simp [List.count_cons, hcq]
        omega
      · rfl
    have hA : ∀ c : Char, pyIsSpace c = false → c ≠ ',' → c ≠ '"' →
        countChar c (stripTrailingComma (if quoteParity s.toList false false
          then s.toList ++ ['"'] else s.toList)) = countChar c s.toList := by
      intro c h1 h2 h3
      rw [countChar_stripTrailingComma c h1 h2, hquote c h3]
    rw [hrepair]
    constructor
    · rw [countChar_append, countChar_append, countChar_append, countChar_append,
        hA '[' (by decide) (by decide) (by decide),
        hA ']' (by decide) (by decide) (by decide),
        countChar_replicate_ne '[' ']' (by decide),
        countChar_replicate_ne '[' '}' (by decide),
        countChar_replicate_self ']',
        countChar_replicate_ne ']' '}' (by decide)]
      omega
    · rw [countChar_append, countChar_append, countChar_append, countChar_append,
        hA '{' (by decide) (by decide) (by decide),
        hA '}' (by decide) (by decide) (by decide),
        countChar_replicate_ne '{' ']' (by decide),
        countChar_replicate_ne '{' '}' (by decide),
        countChar_replicate_ne '}' ']' (by decide),
        countChar_replicate_self '}']
      omega

/-- Counterexample to C7 as stated: on the input `]` nothing can be appended
to balance the surplus closing bracket, and the output keeps unequal counts. -/
theorem repair_truncated_json_balances_cex :
    repair_truncated_json ("]") = "]" ∧
    countChar '[' (repair_truncated_json ("]")).toList ≠
      countChar ']' (repair_truncated_json ("]")).toList := by
  decide

/-- Witness for C7's amended theorem: an object with an unterminated string
value and an unclosed brace gets the quote closed and the brace appended. -/
theorem repair_truncated_json_balances_witness :
    countChar '}' ("\x7b\"a\": \"bc,".toList) ≤ countChar '{' ("\x7b\"a\": \"bc,".toList) ∧
    countChar ']' ("\x7b\"a\": \"bc,".toList) ≤ countChar '[' ("\x7b\"a\": \"bc,".toList) ∧
    (countChar '[' (repair_truncated_json ("\x7b\"a\": \"bc,")).toList =
      countChar ']' (repair_truncated_json ("\x7b\"a\": \"bc,")).toList ∧
    countChar '{' (repair_truncated_json ("\x7b\"a\": \"bc,")).toList =
      countChar '}' (repair_truncated_json ("\x7b\"a\": \"bc,")).toList) :=
  ⟨by decide, by decide,
    repair_truncated_json_balances ("\x7b\"a\": \"bc,") (by decide) (by decide)⟩

/-! ### C4: totality and failure shape of the recovery ladder -/

/-- Every failure message of `safe_parse_json` is one of its three literal
diagnostics, each reporting that no valid structure was recoverable. -/
theorem safe_parse_json_err_msgs {α : Type} (text : String) (validate : Json → Option α)
    (recover : String → Option α) {m : String}
    (h : safe_parse_json text validate recover = .err m) :
    m ∈ ["Empty input", "No JSON found in text",
         "Failed to parse JSON after all attempts"] := by
  simp only [safe_parse_json] at h
  repeat' split at h
  all_goals (cases h ; try decide)

/-- C4: `safe_parse_json`, as wrapped by `_extract_output`, is a total
function returning a result for every raw text; the raw text is always
preserved in the result, and when every ladder rung fails the result has
`success = false`, no data, the original raw text, and an error message
stating that nothing was recoverable. -/
theorem extract_output_total_and_preserving {α : Type} (text : String)
    (validate : Json → Option α) (recover : String → Option α) :
    (extract_output (⟨none, none, text⟩ : TaskOut α) validate recover).raw = text ∧
    (∀ m, safe_parse_json text validate recover = .err m →
      extract_output (⟨none, none, text⟩ : TaskOut α) validate recover =
        ⟨false, none, text, some m⟩ ∧
      m ∈ ["Empty input", "No JSON found in text",
           "Failed to parse JSON after all attempts"]) := by
  constructor
  · cases hsp : safe_parse_json text validate recover with
    | ok a => simp [extract_output, hsp]
    | err m => simp [extract_output, hsp]
  · intro m hm
    refine ⟨?_, safe_parse_json_err_msgs text validate recover hm⟩
    simp [extract_output, hm]

/-- Witness for C4 on a raw text with no recoverable structure. -/
theorem extract_output_total_and_preserving_witness :
    safe_parse_json ("hello") (fun j : Json => some j) (fun _ => none) =
      .err "No JSON found in text" ∧
    extract_output (⟨none, none, "hello"⟩ : TaskOut Json) (fun j => some j) (fun _ => none) =
      ⟨false, none, "hello", some "No JSON found in text"⟩ := by
  have h : safe_parse_json ("hello") (fun j : Json => some j) (fun _ => none) =
      .err "No JSON found in text" := by rfl
  exact ⟨h, ((extract_output_total_and_preserving ("hello") _ _).2 _ h).1⟩

/-! ### C9: the context manager -/

/-- The user-stories summary reads only the user-stories slot. -/
theorem format_user_stories_summary_congr {s t : ContextState}
    (h : s.user_stories = t.user_stories) :
    format_user_stories_summary s = format_user_stories_summary t := by
  unfold format_user_stories_summary
  rw [h]

/-- The system-design summary reads only the system-design slot. -/
theorem format_system_design_summary_congr {s t : ContextState}
    (h : s.system_design = t.system_design) :
    format_system_design_summary s = format_system_design_summary t := by
  unfold format_system_design_summary
  rw [h]

/-- The backend-endpoints summary reads only the backend-code slot. -/
theorem format_backend_endpoints_summary_congr {s t : ContextState}
    (h : s.backend_code = t.backend_code) :
    format_backend_endpoints_summary s = format_backend_endpoints_summary t := by
  unfold format_backend_endpoints_summary
  rw [h]

/-- The QA feedback block reads only the test-report slot. -/
theorem format_qa_feedback_congr {s t : ContextState} (agent : String)
    (h : s.test_report = t.test_report) :
    format_qa_feedback s agent = format_qa_feedback t agent := by
  unfold format_qa_feedback
  rw [h]

/-- The previous-output block reads only the four phase slots. -/
theorem format_previous_output_summary_congr {s t : ContextState} (agent : String)
    (h1 : s.user_stories = t.user_stories) (h2 : s.system_design = t.system_design)
    (h3 : s.backend_code = t.backend_code) (h4 : s.frontend_code = t.frontend_code) :
    format_previous_output_summary s agent = format_previous_output_summary t agent := by
  unfold format_previous_output_summary
  rw [format_user_stories_summary_congr h1, format_system_design_summary_congr h2,
    h1, h2, h3, h4]

/-- C9 (corrected): every per-stage slot update keeps only successful data
(a failed result leaves the slot unchanged), and the frontend stage's context
string is a function of stored validated slots only: on the initial pass it
reads exactly the slots of the frontend's declared upstream stages
(user stories, system design, backend code); on an iteration pass it
additionally reads the frontend's own previous output slot and the stored QA
report — all of which hold only most-recent successful data. -/
theorem context_slots_and_frontend_context :
    (∀ (st : ContextState) (o : PhaseOutput UserStoriesOutput),
      o.success = false → update_user_stories st (some o) = st) ∧
    (∀ (st : ContextState) (o : PhaseOutput SystemDesign),
      o.success = false → update_system_design st (some o) = st) ∧
    (∀ (st : ContextState) (o : PhaseOutput CodeData),
      o.success = false → update_backend_code st (some o) = st) ∧
    (∀ (st : ContextState) (o : PhaseOutput CodeData),
      o.success = false → update_frontend_code st (some o) = st) ∧
    (∀ (st : ContextState) (o : PhaseOutput TRData),
      o.success = false → update_test_report st (some o) = st) ∧
    (∀ s t : ContextState, s.user_stories = t.user_stories →
      s.system_design = t.system_design → s.backend_code = t.backend_code →
      get_context_for_frontend_engineer s false =
        get_context_for_frontend_engineer t false) ∧
    (∀ s t : ContextState, s.user_stories = t.user_stories →
      s.system_design = t.system_design → s.backend_code = t.backend_code →
      s.frontend_code = t.frontend_code → s.test_report = t.test_report →
      get_context_for_frontend_engineer s true =
        get_context_for_frontend_engineer t true) := by
  refine ⟨?_, ?_, ?_, ?_, ?_, ?_, ?_⟩
  · intro st o h
    unfold update_user_stories
    simp [h]
  · intro st o h
    unfold update_system_design
    simp [h]
  · intro st o h
    unfold update_backend_code
    simp [h]
  · intro st o h
    unfold update_frontend_code
    simp [h]
  · intro st o h
    unfold update_test_report
    simp [h]
  · intro s t h1 h2 h3
    unfold get_context_for_frontend_engineer
    simp only [Bool.false_eq_true, if_false]
    rw [format_user_stories_summary_congr h1, format_system_design_summary_congr h2,
      format_backend_endpoints_summary_congr h3]
  · intro s t h1 h2 h3 h4 h5
    unfold get_context_for_frontend_engineer
    rw [format_user_stories_summary_congr h1, format_system_design_summary_congr h2,
      format_backend_endpoints_summary_congr h3,
      format_previous_output_summary_congr AGENT_FRONTEND_ENGINEER h1 h2 h3 h4,
      format_qa_feedback_congr AGENT_FRONTEND_ENGINEER h5]

/-- Counterexample to C9 as stated: the frontend's iteration context changes
when only the QA-report slot changes, although the QA stage is not one of the
frontend's declared upstream dependencies — the context is not built from
upstream stages alone. -/
theorem frontend_context_reads_test_report_cex :
    get_context_for_frontend_engineer emptyContextState true ≠
      get_context_for_frontend_engineer
        { emptyContextState with test_report := some reportFrontendFailure } true := by
  decide

/-- Witness for C9's amended theorem: a failed update leaves the slot as it
was, and the initial-pass frontend context ignores the QA-report slot. -/
theorem context_slots_and_frontend_context_witness :
    ((⟨false, none, "bad output", some "parse error"⟩ :
        PhaseOutput UserStoriesOutput).success = false ∧
      update_user_stories emptyContextState
        (some ⟨false, none, "bad output", some "parse error"⟩) = emptyContextState) ∧
    get_context_for_frontend_engineer emptyContextState false =
      get_context_for_frontend_engineer
        { emptyContextState with test_report := some reportFrontendFailure } false :=
  ⟨⟨rfl, context_slots_and_frontend_context.1 emptyContextState _ rfl⟩,
    context_slots_and_frontend_context.2.2.2.2.2.1 emptyContextState
      { emptyContextState with test_report := some reportFrontendFailure } rfl rfl rfl⟩

/-! ### C3: rung 5 salvages only matched records -/

/-- A successful literal match leaves a suffix of the input. -/
theorem litP_suffix {pat cs r : List Char} (h : litP pat cs = some r) : r <:+ cs := by
  unfold litP at h
  split at h
  · cases h
    exact List.drop_suffix _ _
  · cases h

/-- Whitespace skipping leaves a suffix. -/
theorem wsDrop_suffix (cs : List Char) : wsDrop cs <:+ cs :=
  List.dropWhile_suffix _

/-- A successful `"([^"]+)"` match leaves a suffix of the input. -/
theorem quotedPlus_suffix {cs : List Char} {g r : List Char}
    (h : quotedPlus cs = some (g, r)) : r <:+ cs := by
  unfold quotedPlus at h
  split at h
  · cases h
  rename_i c rest
  split at h
  · split at h
    · cases h
    · split at h
      · cases h
      rename_i d r2 hdrop
      split at h
      · cases h
        refine ((List.suffix_cons d _).trans ?_).trans (List.suffix_cons c rest)
        exact hdrop ▸ List.dropWhile_suffix _
      · cases h
  · cases h

/-- A successful escaped-string body match leaves a suffix of the input. -/
theorem escRun_suffix (fuel : Nat) :
    ∀ (cs : List Char) (g r : List Char), escRun fuel cs = some (g, r) → r <:+ cs := by
  induction fuel with
  | zero => intro cs g r h; cases h
  | succ fuel ih =>
    intro cs g r h
    cases cs with
    | nil => cases h
    | cons c rest =>
      simp only [escRun] at h
      split at h
      · cases h
        exact List.suffix_cons _ _
      · split at h
        · split at h
          · cases h
          rename_i c2 rest2
          split at h
          · cases h
          · rcases Option.map_eq_some'.mp h with ⟨⟨g0, r0⟩, hrec, heq⟩
            cases heq
            exact ((ih rest2 g0 r0 hrec).trans (List.suffix_cons c2 rest2)).trans
              (List.suffix_cons c (c2 :: rest2))
        · rcases Option.map_eq_some'.mp h with ⟨⟨g0, r0⟩, hrec, heq⟩
          cases heq
          exact (ih rest g0 r0 hrec).trans (List.suffix_cons c rest)

/-- A successful escaped-string field match leaves a suffix of the input. -/
theorem quotedEsc_suffix {cs : List Char} {g r : List Char}
    (h : quotedEsc cs = some (g, r)) : r <:+ cs := by
  unfold quotedEsc at h
  split at h
  · cases h
  rename_i c rest
  split at h
  · exact (escRun_suffix _ rest g r h).trans (List.suffix_cons c rest)
  · cases h

/-- A successful `\[([^\]]*)\]` match leaves a suffix of the input. -/
theorem bracketGroup_suffix {cs : List Char} {g r : List Char}
    (h : bracketGroup cs = some (g, r)) : r <:+ cs := by
  unfold bracketGroup at h
  split at h
  · cases h
  rename_i c rest
  split at h
  · split at h
    · cases h
    rename_i d r2 hdrop
    split at h
    · cases h
      refine ((List.suffix_cons d _).trans ?_).trans (List.suffix_cons c rest)
      exact hdrop ▸ List.dropWhile_suffix _
    · cases h
  · cases h

/-- A successful key-glue match leaves a suffix of the input. -/
theorem keyGlue_suffix {key : String} {cs r : List Char}
    (h : keyGlue key cs = some r) : r <:+ cs := by
  unfold keyGlue at h
  split at h
  · cases h
  rename_i cs1 h1
  split at h
  · cases h
  rename_i cs2 h2
  cases h
  exact (wsDrop_suffix cs2).trans ((litP_suffix h2).trans
    ((wsDrop_suffix cs1).trans ((litP_suffix h1).trans (wsDrop_suffix cs))))

/-- A successful comma-glue match leaves a suffix of the input. -/
theorem commaGlue_suffix {cs r : List Char} (h : commaGlue cs = some r) : r <:+ cs := by
  unfold commaGlue at h
  split at h
  · cases h
  rename_i cs1 h1
  cases h
  exact (litP_suffix h1).trans (wsDrop_suffix cs)

/-- A successful story-pattern match leaves a suffix of the input. -/
theorem matchStory_suffix {cs0 : List Char} {g : StoryG} {r : List Char}
    (h : matchStory cs0 = some (g, r)) : r <:+ cs0 := by
  unfold matchStory at h
  split at h
  · cases h
  rename_i cs1 h1
  split at h
  · cases h
  rename_i cs2 h2
  split at h
  · cases h
  rename_i idv cs3 h3
  split at h
  · cases h
  rename_i cs4 h4
  split at h
  · cases h
  rename_i cs5 h5
  split at h
  · cases h
  rename_i titlev cs6 h6
  split at h
  · cases h
  rename_i cs7 h7
  split at h
  · cases h
  rename_i cs8 h8
  split at h
  · cases h
  rename_i descv cs9 h9
  split at h
  · cases h
  rename_i cs10 h10
  split at h
  · cases h
  rename_i cs11 h11
  split at h
  · cases h
  rename_i priov cs12 h12
  split at h
  · cases h
  rename_i cs13 h13
  cases h
  exact (litP_suffix h13).trans ((wsDrop_suffix cs12).trans
    ((quotedPlus_suffix h12).trans ((keyGlue_suffix h11).trans
    ((commaGlue_suffix h10).trans ((quotedEsc_suffix h9).trans
    ((keyGlue_suffix h8).trans ((commaGlue_suffix h7).trans
    ((quotedPlus_suffix h6).trans ((keyGlue_suffix h5).trans
    ((commaGlue_suffix h4).trans ((quotedPlus_suffix h3).trans
    ((keyGlue_suffix h2).trans (litP_suffix h1)))))))))))))

/-- Every group collected by the story scan arises from a pattern match on a
suffix of the scanned text. -/
theorem finditerStory_sound {fuel : Nat} :
    ∀ {cs : List Char} {g : StoryG}, g ∈ finditerStory fuel cs →
      ∃ suf rest, suf <:+ cs ∧ matchStory suf = some (g, rest) := by
  induction fuel with
  | zero => intro cs g h; cases h
  | succ fuel ih =>
    intro cs g h
    cases cs with
    | nil => cases h
    | cons c rest =>
      rw [finditerStory] at h
      revert h
      cases hm : matchStory (c :: rest) with
      | some gr =>
        intro h
        obtain ⟨g0, r⟩ := gr
        rcases List.mem_cons.mp h with rfl | h
        · exact ⟨c :: rest, r, List.suffix_refl _, hm⟩
        · obtain ⟨suf, rest', hsuf, hm'⟩ := ih h
          exact ⟨suf, rest', hsuf.trans (matchStory_suffix hm), hm'⟩
      | none =>
        intro h
        obtain ⟨suf, rest', hsuf, hm'⟩ := ih h
        exact ⟨suf, rest', hsuf.trans (List.suffix_cons c rest), hm'⟩

set_option maxRecDepth 8000 in
/-- C3 (corrected): the user-story salvage of rung 5 never fabricates record
content — every story in the returned envelope is built from a complete
pattern match found on a suffix of the input text, and Scenario C (three
complete records followed by a cut-off partial one) returns exactly the three
complete records with the default empty summary.  (The system-design salvage,
by contrast, substitutes a fabricated placeholder record when one of its two
lists comes up empty — see the counterexample.) -/
theorem recover_user_stories_no_fabrication :
    (∀ (text : String) (out : UserStoriesOutput), recover_user_stories text = some out →
      ∀ st ∈ out.stories, ∃ (g : StoryG) (suf rest : List Char),
        suf <:+ text.toList ∧ matchStory suf = some (g, rest) ∧ st = storyOfGroups g) ∧
    recover_user_stories scenarioCInput = some
      { stories := [⟨"US1", "Add", "d1", "high"⟩, ⟨"US2", "List", "d2", "medium"⟩,
                    ⟨"US3", "Del", "d3", "low"⟩],
        summary := "" } := by
  constructor
  · intro text out hout st hst
    simp only [recover_user_stories] at hout
    split at hout
    · cases hout
    · cases hout
      simp only [List.mem_map] at hst
      obtain ⟨g, hg, hstg⟩ := hst
      obtain ⟨suf, rest, hsuf, hm⟩ := finditerStory_sound hg
      exact ⟨g, suf, rest, hsuf, hm, hstg.symm⟩
  · decide

set_option maxRecDepth 8000 in
/-- Counterexample to C3 as stated: on an input holding one complete endpoint
record and no model record, the system-design salvage returns an envelope
containing the fabricated record `Item` — a record not present in the input
(its name does not even occur in the text). -/
theorem recover_system_design_fabricates_cex :
    recover_system_design fabricationInput = some
      { models := [{ name := "Item", fields := ["id: int", "name: str"] }],
        endpoints := [{ method := "GET", path := "/api/users",
                        description := "List users" }],
        architecture_notes := "" } ∧
    ¬ ("Item".toList <:+: fabricationInput.toList) := by
  constructor
  · decide
  · decide

set_option maxRecDepth 8000 in
/-- Witness for C3's soundness component at the Scenario C input. -/
theorem recover_user_stories_no_fabrication_witness :
    (recover_user_stories scenarioCInput = some
      { stories := [⟨"US1", "Add", "d1", "high"⟩, ⟨"US2", "List", "d2", "medium"⟩,
                    ⟨"US3", "Del", "d3", "low"⟩],
        summary := "" }) ∧
    ∃ (g : StoryG) (suf rest : List Char),
      suf <:+ scenarioCInput.toList ∧ matchStory suf = some (g, rest) ∧
      (⟨"US1", "Add", "d1", "high"⟩ : UserStory) = storyOfGroups g :=
  ⟨recover_user_stories_no_fabrication.2,
    recover_user_stories_no_fabrication.1 scenarioCInput _
      recover_user_stories_no_fabrication.2 _ (by decide)⟩

/-! ### C8: rung 2 extracts a fenced block -/

/-- `splitFirst` at an occurrence sitting at the very start of the text. -/
theorem splitFirst_of_prefix (pat rest : List Char) (hpat : pat ≠ []) :
    splitFirst pat (pat ++ rest) = some ([], rest) := by
  cases pat with
  | nil => exact absurd rfl hpat
  | cons p ps =>
    rw [List.cons_append]
    simp only [splitFirst]
    rw [if_pos (List.isPrefixOf_iff_prefix.mpr
      (by rw [← List.cons_append]; exact List.prefix_append _ rest))]
    rw [← List.cons_append, List.drop_left]

/-- `splitFirst` finds an occurrence after `pre` when no occurrence starts
inside `pre`. -/
theorem splitFirst_append (pat : List Char) (hpat : pat ≠ []) :
    ∀ (pre post : List Char),
      (∀ i, i < pre.length → ¬ (pat.isPrefixOf (pre.drop i ++ (pat ++ post)) = true)) →
      splitFirst pat (pre ++ (pat ++ post)) = some (pre, post)
  | [], post, _ => by simpa using splitFirst_of_prefix pat post hpat
  | c :: cs, post, h => by
    have h0 : ¬ (pat.isPrefixOf (c :: (cs ++ (pat ++ post))) = true) := by
      have := h 0 (by simp)
      simpa using this
    rw [List.cons_append]
    simp only [splitFirst]
    rw [if_neg h0,
      splitFirst_append pat hpat cs post
        (fun i hi => by simpa using h (i + 1) (by simpa using Nat.succ_lt_succ hi))]
    rfl

/-- When a block text contains no backtick, no occurrence of the closing
fence can start inside the newline-wrapped block. -/
theorem no_backtick_no_early {B post : List Char} (hB : '`' ∉ B) :
    ∀ i, i < ('\n' :: (B ++ ['\n'])).length →
      ¬ (("```".toList).isPrefixOf
          ((('\n' :: (B ++ ['\n'])).drop i) ++ ("```".toList ++ post)) = true) := by
  intro i hi hpref
  have hne : ('\n' :: (B ++ ['\n'])).drop i ≠ [] := by
    intro hnil
    have := congrArg List.length hnil
    simp only [List.length_drop, List.length_nil] at this
    omega
  obtain ⟨t, ht⟩ := List.isPrefixOf_iff_prefix.mp hpref
  have hhead : ((('\n' :: (B ++ ['\n'])).drop i) ++ ("```".toList ++ post)).head? =
      some '`' := by
    rw [← ht]
    rfl
  rw [List.head?_append_of_ne_nil _ hne, List.head?_drop] at hhead
  have hmem : '`' ∈ ('\n' :: (B ++ ['\n'])) := List.getElem?_mem hhead
  simp only [List.mem_cons, List.mem_append, List.mem_singleton] at hmem
  rcases hmem with h | h | h
  · exact absurd h (by decide)
  · exact hB h
  · exact absurd h (by decide)

/-- Dropping whitespace does nothing at a non-space head. -/
theorem lstrip_cons_of_nonspace {c : Char} (hc : pyIsSpace c = false) (l : List Char) :
    (c :: l).dropWhile pyIsSpace = c :: l := by
  rw [List.dropWhile_cons]
  simp [hc]

/-- Right-stripping does nothing when the last character is not whitespace. -/
theorem rstrip_eq_self {l : List Char} {c : Char} (hlast : l.getLast? = some c)
    (hc : pyIsSpace c = false) : (l.reverse.dropWhile pyIsSpace).reverse = l := by
  cases har : l.reverse with
  | nil =>
    have : l = [] := by simpa using congrArg List.reverse har
    subst this
    cases hlast
  | cons x xs =>
    have hx : x = c := by
      have h1 := List.head?_reverse l
      rw [har, hlast] at h1
      exact (Option.some.injEq _ _).mp h1
    rw [lstrip_cons_of_nonspace (hx ▸ hc), ← har, List.reverse_reverse]

/-- Right-stripping an append whose left part ends in a non-space character
only strips the right part. -/
theorem rstrip_append {a : List Char} (b : List Char) {c : Char}
    (hlast : a.getLast? = some c) (hc : pyIsSpace c = false) :
    ((a ++ b).reverse.dropWhile pyIsSpace).reverse =
      a ++ (b.reverse.dropWhile pyIsSpace).reverse := by
  rw [List.reverse_append, List.dropWhile_append]
  split
  next hemp =>
    have h2 : b.reverse.dropWhile pyIsSpace = [] := by
      simpa [List.isEmpty_iff] using hemp
    rw [h2]
    have h3 := rstrip_eq_self hlast hc
    simpa using h3
  next =>
    rw [List.reverse_append, List.reverse_reverse]

/-- Stripping the newline-wrapped block recovers the block itself. -/
theorem pyStrip_newline_wrap {B : List Char} (hhead : B.head? = some '{')
    (hlast : B.getLast? = some '}') :
    pyStrip ('\n' :: (B ++ ['\n'])) = B := by
  obtain ⟨B', rfl⟩ : ∃ B', B = '{' :: B' := by
    cases B with
    | nil => cases hhead
    | cons x xs =>
      simp only [List.head?_cons, Option.some.injEq] at hhead
      exact ⟨xs, by rw [hhead]⟩
  unfold pyStrip
  rw [show (('\n' : Char) :: (('{' :: B') ++ ['\n'])).dropWhile pyIsSpace =
        (('{' :: B') ++ ['\n']).dropWhile pyIsSpace from by rw [List.dropWhile_cons]; rfl]
  rw [List.cons_append, lstrip_cons_of_nonspace (by decide)]
  rw [← List.cons_append, List.reverse_append]
  rw [show (['\n'] : List Char).reverse = ['\n'] from rfl]
  rw [show (('\n' : Char) :: []) ++ ('{' :: B').reverse = '\n' :: ('{' :: B').reverse from rfl]
  rw [show (('\n' : Char) :: ('{' :: B').reverse).dropWhile pyIsSpace =
        ('{' :: B').reverse.dropWhile pyIsSpace from by rw [List.dropWhile_cons]; rfl]
  exact rstrip_eq_self hlast (by decide)

/-- Stripping a block that already starts with `{` and ends with `}` is the
identity. -/
theorem pyStrip_eq_self {B : List Char} (hhead : B.head? = some '{')
    (hlast : B.getLast? = some '}') : pyStrip B = B := by
  obtain ⟨B', rfl⟩ : ∃ B', B = '{' :: B' := by
    cases B with
    | nil => cases hhead
    | cons x xs =>
      simp only [List.head?_cons, Option.some.injEq] at hhead
      exact ⟨xs, by rw [hhead]⟩
  unfold pyStrip
  rw [lstrip_cons_of_nonspace (by decide)]
  exact rstrip_eq_self hlast (by decide)

/-- Rung 2 on a fenced block: for a raw text that is a ```json fence around a
brace-delimited block (containing no backtick) followed by arbitrary trailing
prose, `extract_json_from_text` returns exactly the block. -/
theorem extract_json_fenced {B prose : List Char}
    (hhead : B.head? = some '{') (hlast : B.getLast? = some '}')
    (hbt : '`' ∉ B) :
    extract_json_from_text
        (String.mk ("```json\n".toList ++ (B ++ ("\n```".toList ++ prose)))) =
      some (String.mk B) := by
  set X := "```json\n".toList ++ (B ++ ("\n```".toList ++ prose)) with hX
  have hne0 : String.mk X ≠ "" := by
    intro h
    have h2 : X = [] := by simpa using congrArg String.toList h
    have h3 := congrArg List.length h2
    simp [hX] at h3
  have hal : ("```json\n".toList ++ (B ++ "\n```".toList)).getLast? = some '`' := by
    rw [← List.head?_reverse, List.reverse_append, List.reverse_append]
    rfl
  have h1 : X.dropWhile pyIsSpace = X := lstrip_cons_of_nonspace (by decide) _
  have hstrip : pyStrip X = ("```json\n".toList ++ (B ++ "\n```".toList)) ++
      (prose.reverse.dropWhile pyIsSpace).reverse := by
    unfold pyStrip
    rw [h1]
    have hXa : X = ("```json\n".toList ++ (B ++ "\n```".toList)) ++ prose := by
      simp [hX, List.append_assoc]
    rw [hXa]
    exact rstrip_append prose hal (by decide)
  have hhead_t : (pyStrip X).head? = some '`' := by
    rw [hstrip]
    rfl
  have hdecomp : pyStrip X = "```json".toList ++
      (('\n' :: (B ++ ['\n'])) ++ ("```".toList ++
        (prose.reverse.dropWhile pyIsSpace).reverse)) := by
    rw [hstrip]
    simp [List.append_assoc]
  have h2 : splitFirst ("```json".toList) (pyStrip X) =
      some ([], ('\n' :: (B ++ ['\n'])) ++ ("```".toList ++
        (prose.reverse.dropWhile pyIsSpace).reverse)) := by
    rw [hdecomp]
    exact splitFirst_of_prefix _ _ (by decide)
  have h3 : splitFirst ("```".toList)
      ((('\n' :: (B ++ ['\n'])) ++ ("```".toList ++
        (prose.reverse.dropWhile pyIsSpace).reverse))) =
      some ('\n' :: (B ++ ['\n']), (prose.reverse.dropWhile pyIsSpace).reverse) :=
    splitFirst_append _ (by decide) _ _ (no_backtick_no_early hbt)
  have h4 : findallBlocks ("```json".toList) ("```".toList)
      ((pyStrip X).length + 1) (pyStrip X) =
      pyStrip ('\n' :: (B ++ ['\n'])) :: findallBlocks ("```json".toList) ("```".toList)
        ((pyStrip X).length) ((prose.reverse.dropWhile pyIsSpace).reverse) := by
    simp only [findallBlocks, h2, h3]
  have h5 : pyStrip ('\n' :: (B ++ ['\n'])) = B := pyStrip_newline_wrap hhead hlast
  have hcond1 : ¬((pyStrip X).head? = some '{' ∧ (pyStrip X).getLast? = some '}') := by
    intro hand
    exact absurd (hhead_t.symm.trans hand.1) (by decide)
  have hcond2 : ¬((pyStrip X).head? = some '[' ∧ (pyStrip X).getLast? = some ']') := by
    intro hand
    exact absurd (hhead_t.symm.trans hand.1) (by decide)
  simp only [extract_json_from_text]
  rw [if_neg hne0]
  have htl : (String.mk X).toList = X := rfl
  rw [htl, if_neg hcond1, if_neg hcond2]
  simp only [List.flatMap_cons, List.flatMap_nil]
  rw [h4, h5, List.cons_append]
  rw [List.find?_cons_of_pos _ (by simp [startsBrace, hhead])]

/-- When extraction yields a block that parses and validates directly, the
ladder stops at its first parse rung with that result. -/
theorem safe_parse_json_of_extract {α : Type} {text js : String} {v : Json} {r : α}
    (validate : Json → Option α) (recover : String → Option α)
    (htext : ¬ text = "") (hex : extract_json_from_text text = some js)
    (hjs : ¬ js = "") (hparse : jsonParse js = some v) (hval : validate v = some r) :
    safe_parse_json text validate recover = .ok r := by
  unfold safe_parse_json
  rw [if_neg htext, hex]
  simp only []
  rw [if_neg hjs, hparse]
  simp only [Option.bind]
  rw [hval]

/-- C8: for a raw text that is a ```json fence around valid JSON for the
schema (a brace-delimited block without backticks) followed by trailing
prose, recovery succeeds via rung 2 — the fenced block is extracted — and the
returned data equals the result of parsing and validating the block alone. -/
theorem safe_parse_json_fenced_block {α : Type} (B prose : List Char)
    (validate : Json → Option α) (recover : String → Option α) (v : Json) (r : α)
    (hhead : B.head? = some '{') (hlast : B.getLast? = some '}') (hbt : '`' ∉ B)
    (hparse : jsonParse (String.mk B) = some v) (hval : validate v = some r) :
    safe_parse_json (String.mk ("```json\n".toList ++ (B ++ ("\n```".toList ++ prose))))
        validate recover = .ok r ∧
    safe_parse_json (String.mk B) validate recover = .ok r := by
  have hBne : B ≠ [] := by
    intro h
    rw [h] at hhead
    cases hhead
  have hjs : String.mk B ≠ "" := by
    intro h
    exact hBne (by simpa using congrArg String.toList h)
  have hbv : (jsonParse (String.mk B)).bind validate = some r := by
    rw [hparse]
    exact hval
  constructor
  · have hne0 : ¬ String.mk ("```json\n".toList ++ (B ++ ("\n```".toList ++ prose))) = "" := by
      intro h
      have h2 : "```json\n".toList ++ (B ++ ("\n```".toList ++ prose)) = [] := by
        simpa using congrArg String.toList h
      have h3 := congrArg List.length h2
      simp at h3
    exact safe_parse_json_of_extract validate recover hne0
      (extract_json_fenced hhead hlast hbt) hjs hparse hval
  · have hextract : extract_json_from_text (String.mk B) = some (String.mk B) := by
      simp only [extract_json_from_text]
      rw [if_neg hjs]
      have htl : (String.mk B).toList = B := rfl
      rw [htl, pyStrip_eq_self hhead hlast, if_pos ⟨hhead, hlast⟩]
    exact safe_parse_json_of_extract validate recover hjs hextract hjs hparse hval

set_option maxRecDepth 8000 in
/-- Witness for C8 on a concrete fenced block with trailing prose. -/
theorem safe_parse_json_fenced_block_witness :
    (("\x7b\"a\": \"b\"\x7d".toList).head? = some '{' ∧
      jsonParse (String.mk ("\x7b\"a\": \"b\"\x7d".toList)) =
        some (Json.obj [("a", Json.str "b")])) ∧
    safe_parse_json
        (String.mk ("```json\n".toList ++ ("\x7b\"a\": \"b\"\x7d".toList ++
          ("\n```".toList ++ "\nSome trailing prose.".toList))))
        (fun j : Json => some j) (fun _ => none) =
      .ok (Json.obj [("a", Json.str "b")]) :=
  ⟨⟨rfl, rfl⟩,
    (safe_parse_json_fenced_block ("\x7b\"a\": \"b\"\x7d".toList)
      ("\nSome trailing prose.".toList) (fun j : Json => some j) (fun _ => none)
      (Json.obj [("a", Json.str "b")]) (Json.obj [("a", Json.str "b")])
      rfl rfl (by decide) rfl rfl).1⟩

end Pentagon
